import Mathlib

set_option genInjectivity false
set_option genSizeOfSpec false

/-!
Verification development for the PBCharacterMovement component
(Source-engine style character movement: braking, air strafing, falling
integration with apex sub-stepping, slope boosting, crouch resizing,
landing validation and jump boosting).

Floating point arithmetic of the C++ source is modelled over the real
numbers.  External engine collaborators (world overlap and sweep queries,
floor queries, walkability tests) are modelled as explicit oracle
parameters, following the specification of the Collision Query Adapter.
-/

namespace PBMovement

open scoped Classical

noncomputable section

/-- Three-component vector modelling Unreal double-precision FVector. -/
@[ext]
structure Vec3 where
  x : ℝ
  y : ℝ
  z : ℝ

namespace Vec3

instance : Zero Vec3 := ⟨⟨0, 0, 0⟩⟩

instance : Add Vec3 := ⟨fun a b => ⟨a.x + b.x, a.y + b.y, a.z + b.z⟩⟩

instance : Sub Vec3 := ⟨fun a b => ⟨a.x - b.x, a.y - b.y, a.z - b.z⟩⟩

instance : Neg Vec3 := ⟨fun a => ⟨-a.x, -a.y, -a.z⟩⟩

instance : SMul ℝ Vec3 := ⟨fun r a => ⟨r * a.x, r * a.y, r * a.z⟩⟩

@[simp] theorem zero_x : (0 : Vec3).x = 0 := rfl

@[simp] theorem zero_y : (0 : Vec3).y = 0 := rfl

@[simp] theorem zero_z : (0 : Vec3).z = 0 := rfl

@[simp] theorem add_x (a b : Vec3) : (a + b).x = a.x + b.x := rfl

@[simp] theorem add_y (a b : Vec3) : (a + b).y = a.y + b.y := rfl

@[simp] theorem add_z (a b : Vec3) : (a + b).z = a.z + b.z := rfl

@[simp] theorem sub_x (a b : Vec3) : (a - b).x = a.x - b.x := rfl

@[simp] theorem sub_y (a b : Vec3) : (a - b).y = a.y - b.y := rfl

@[simp] theorem sub_z (a b : Vec3) : (a - b).z = a.z - b.z := rfl

@[simp] theorem neg_x (a : Vec3) : (-a).x = -a.x := rfl

@[simp] theorem neg_y (a : Vec3) : (-a).y = -a.y := rfl

@[simp] theorem neg_z (a : Vec3) : (-a).z = -a.z := rfl

@[simp] theorem smul_x (r : ℝ) (a : Vec3) : (r • a).x = r * a.x := rfl

@[simp] theorem smul_y (r : ℝ) (a : Vec3) : (r • a).y = r * a.y := rfl

@[simp] theorem smul_z (r : ℝ) (a : Vec3) : (r • a).z = r * a.z := rfl

@[simp] theorem mk_x (a b c : ℝ) : (Vec3.mk a b c).x = a := rfl

@[simp] theorem mk_y (a b c : ℝ) : (Vec3.mk a b c).y = b := rfl

@[simp] theorem mk_z (a b c : ℝ) : (Vec3.mk a b c).z = c := rfl

/-- Dot product (FVector operator|). -/
def dot (a b : Vec3) : ℝ := a.x * b.x + a.y * b.y + a.z * b.z

/-- Squared length (FVector::SizeSquared). -/
def sizeSq (a : Vec3) : ℝ := a.x ^ 2 + a.y ^ 2 + a.z ^ 2

/-- Length (FVector::Size). -/
def size (a : Vec3) : ℝ := Real.sqrt a.sizeSq

/-- Squared 2D length (FVector::SizeSquared2D). -/
def size2DSq (a : Vec3) : ℝ := a.x ^ 2 + a.y ^ 2

/-- 2D length (FVector::Size2D). -/
def size2D (a : Vec3) : ℝ := Real.sqrt a.size2DSq

theorem one_smul (a : Vec3) : (1 : ℝ) • a = a := by
  ext <;> simp

theorem zero_smul (a : Vec3) : (0 : ℝ) • a = 0 := by
  ext <;> simp

theorem dot_smul_left (r : ℝ) (a b : Vec3) : dot (r • a) b = r * dot a b := by
  simp [dot]; ring

theorem dot_self_eq_sizeSq (a : Vec3) : dot a a = sizeSq a := by
  simp only [dot, sizeSq, pow_two]

theorem sizeSq_nonneg (a : Vec3) : 0 ≤ sizeSq a :=
  add_nonneg (add_nonneg (sq_nonneg a.x) (sq_nonneg a.y)) (sq_nonneg a.z)

theorem size2DSq_nonneg (a : Vec3) : 0 ≤ size2DSq a :=
  add_nonneg (sq_nonneg a.x) (sq_nonneg a.y)

theorem size2D_nonneg (a : Vec3) : 0 ≤ size2D a := Real.sqrt_nonneg _

theorem size_sq (a : Vec3) : size a ^ 2 = sizeSq a :=
  Real.sq_sqrt (sizeSq_nonneg a)

theorem size2D_sq (a : Vec3) : size2D a ^ 2 = size2DSq a :=
  Real.sq_sqrt (size2DSq_nonneg a)

theorem size2D_smul (r : ℝ) (a : Vec3) (hr : 0 ≤ r) : size2D (r • a) = r * size2D a := by
  simp only [size2D, size2DSq, smul_x, smul_y]
  rw [show (r * a.x) ^ 2 + (r * a.y) ^ 2 = r ^ 2 * (a.x ^ 2 + a.y ^ 2) by ring]
  rw [Real.sqrt_mul (sq_nonneg r), Real.sqrt_sq hr]

theorem abs_x_le_size2D (a : Vec3) : |a.x| ≤ size2D a := by
  have h : a.x ^ 2 ≤ size2DSq a := by
    have := sq_nonneg a.y; simp only [size2DSq]; linarith
  calc |a.x| = Real.sqrt (a.x ^ 2) := (Real.sqrt_sq_eq_abs a.x).symm
  _ ≤ Real.sqrt (size2DSq a) := Real.sqrt_le_sqrt h

theorem abs_y_le_size2D (a : Vec3) : |a.y| ≤ size2D a := by
  have h : a.y ^ 2 ≤ size2DSq a := by
    have := sq_nonneg a.x; simp only [size2DSq]; linarith
  calc |a.y| = Real.sqrt (a.y ^ 2) := (Real.sqrt_sq_eq_abs a.y).symm
  _ ≤ Real.sqrt (size2DSq a) := Real.sqrt_le_sqrt h

end Vec3

/-- Engine tick epsilon MIN_TICK_TIME. -/
def MIN_TICK_TIME : ℝ := 1e-6

/-- Engine constant KINDA_SMALL_NUMBER. -/
def KINDA_SMALL_NUMBER : ℝ := 1e-4

/-- Engine constant SMALL_NUMBER. -/
def SMALL_NUMBER : ℝ := 1e-8

/-- Engine constant MAX_FLOOR_DIST. -/
def MAX_FLOOR_DIST : ℝ := 2.4

/-- Engine constant MIN_FLOOR_DIST. -/
def MIN_FLOOR_DIST : ℝ := 1.9

/-- PlayerMovementConstants JumpVelocity. -/
def JumpVelocity : ℝ := 266.7

/-- PlayerMovementConstants VerticalSlopeNormalZ. -/
def VerticalSlopeNormalZ : ℝ := 0.001

/-- FMath::Clamp on reals: below the lower bound gives the lower bound,
above the upper bound gives the upper bound, otherwise the value itself. -/
def fclamp (x lo hi : ℝ) : ℝ := if x < lo then lo else if x > hi then hi else x

/-- FMath::Lerp between two reals. -/
def lerp (a b t : ℝ) : ℝ := a + t * (b - a)

theorem fclamp_eq_self (x lo hi : ℝ) (h1 : lo ≤ x) (h2 : x ≤ hi) : fclamp x lo hi = x := by
  simp only [fclamp]
  rw [if_neg (by linarith), if_neg (by linarith)]

theorem fclamp_lower (x lo hi : ℝ) (h : lo ≤ hi) : lo ≤ fclamp x lo hi := by
  simp only [fclamp]
  by_cases h1 : x < lo
  · simp [h1]
  · rw [if_neg h1]
    by_cases h2 : x > hi
    · simp [h2, h]
    · rw [if_neg h2]; linarith [not_lt.mp h1]

theorem fclamp_eq_min_max (x : ℝ) : fclamp x 0 1 = min 1 (max 0 x) := by
  simp only [fclamp]
  rcases lt_trichotomy x 0 with h | h | h
  · rw [if_pos h, max_eq_left h.le, min_eq_right zero_le_one]
  · subst h; norm_num
  · rw [if_neg (by linarith)]
    rw [max_eq_right h.le]
    by_cases h2 : x > 1
    · rw [if_pos h2, min_eq_left h2.le]
    · rw [if_neg h2, min_eq_right (not_lt.mp h2)]

/-- FVector::IsNearlyZero: every component within the tolerance. -/
def isNearlyZero (v : Vec3) (tol : ℝ) : Prop := |v.x| ≤ tol ∧ |v.y| ≤ tol ∧ |v.z| ≤ tol

theorem isNearlyZero_mono {v : Vec3} {t1 t2 : ℝ} (h : t1 ≤ t2)
    (hv : isNearlyZero v t1) : isNearlyZero v t2 :=
  ⟨hv.1.trans h, hv.2.1.trans h, hv.2.2.trans h⟩

theorem not_isNearlyZero_sizeSq {v : Vec3} (h : ¬ isNearlyZero v 0.1) :
    0.01 < Vec3.sizeSq v := by
  have key : ∀ a b c : ℝ, 0.1 < |a| → 0.01 < a ^ 2 + b ^ 2 + c ^ 2 := by
    intro a b c ha
    have h1 : (0.1 : ℝ) * 0.1 < |a| * |a| :=
      mul_self_lt_mul_self (by norm_num) ha
    have h2 : |a| * |a| = a ^ 2 := (abs_mul_abs_self a).trans (pow_two a).symm
    have hb := sq_nonneg b
    have hc := sq_nonneg c
    rw [h2] at h1
    linarith
  simp only [isNearlyZero, not_and_or, not_le] at h
  simp only [Vec3.sizeSq]
  rcases h with h | h | h
  · exact key v.x v.y v.z h
  · have := key v.y v.x v.z h; linarith
  · have := key v.z v.x v.y h; linarith

/-- FVector::GetSafeNormal with the default tolerance SMALL_NUMBER. -/
def safeNormal (v : Vec3) : Vec3 :=
  if Vec3.sizeSq v = 1 then v
  else if Vec3.sizeSq v < SMALL_NUMBER then 0
  else (1 / Vec3.size v) • v

/-- FVector::GetSafeNormal2D with the default tolerance SMALL_NUMBER. -/
def safeNormal2D (v : Vec3) : Vec3 :=
  if Vec3.size2DSq v = 1 then ⟨v.x, v.y, 0⟩
  else if Vec3.size2DSq v < SMALL_NUMBER then 0
  else (1 / Vec3.size2D v) • ⟨v.x, v.y, 0⟩

/-- FVector::GetClampedToMaxSize2D. -/
def clampedToMaxSize2D (v : Vec3) (maxSize : ℝ) : Vec3 :=
  if maxSize < KINDA_SMALL_NUMBER then ⟨0, 0, v.z⟩
  else if Vec3.size2DSq v > maxSize ^ 2 then
    ⟨v.x * (maxSize / Vec3.size2D v), v.y * (maxSize / Vec3.size2D v), v.z⟩
  else v

/-- FVector::GetClampedToSize. -/
def clampedToSize (v : Vec3) (mn mx : ℝ) : Vec3 :=
  (fclamp (Vec3.size v) mn mx) • (if Vec3.size v > SMALL_NUMBER then (1 / Vec3.size v) • v else 0)

/-- FVector::ProjectOnToNormal: projection on an assumed-normalized vector. -/
def projectOnToNormal (v n : Vec3) : Vec3 := (Vec3.dot v n) • n

/-- FVector::CosineAngle2D. -/
def cosineAngle2D (a b : Vec3) : ℝ :=
  Vec3.dot (safeNormal ⟨a.x, a.y, 0⟩) (safeNormal ⟨b.x, b.y, 0⟩)

/-- Clamp the two lateral axes of a velocity to the axis speed limit, as in
the Limit before and Limit after sections of CalcVelocity. -/
def clampAxis2D (v : Vec3) (limit : ℝ) : Vec3 :=
  ⟨fclamp v.x (-limit) limit, fclamp v.y (-limit) limit, v.z⟩

/-- Configuration read by UPBPlayerMovement::ApplyVelocityBraking. -/
structure BrakingConfig where
  brakingFrictionFactor : ℝ
  brakingSubStepTime : ℝ

/-- The braking sub-step bound: BrakingSubStepTime clamped to [1/75, 1/20]. -/
def brakingMaxTimeStep (cfg : BrakingConfig) : ℝ :=
  fclamp cfg.brakingSubStepTime (1 / 75) (1 / 20)

/-- The sub-step consumed by one iteration of the braking loop. -/
def brakingDelta (cfg : BrakingConfig) (remaining : ℝ) : ℝ :=
  if remaining > brakingMaxTimeStep cfg then min (brakingMaxTimeStep cfg) (remaining * 0.5)
  else remaining

theorem brakingMaxTimeStep_lower (cfg : BrakingConfig) :
    1 / 75 ≤ brakingMaxTimeStep cfg :=
  fclamp_lower _ _ _ (by norm_num)

theorem brakingDelta_decreases (cfg : BrakingConfig) (remaining : ℝ)
    (h : MIN_TICK_TIME ≤ remaining) :
    Nat.ceil ((150 : ℝ) * (remaining - brakingDelta cfg remaining)) <
      Nat.ceil ((150 : ℝ) * remaining) := by
  have hrem : (0 : ℝ) < remaining := lt_of_lt_of_le (by norm_num [MIN_TICK_TIME]) h
  have key : ∀ δ : ℝ, 1 / 150 ≤ δ → δ ≤ remaining →
      Nat.ceil ((150 : ℝ) * (remaining - δ)) < Nat.ceil ((150 : ℝ) * remaining) := by
    intro δ h1 h2
    have hnn : (0 : ℝ) ≤ 150 * (remaining - δ) := by linarith
    have hlt := Nat.ceil_lt_add_one hnn
    rw [Nat.lt_ceil]
    linarith
  simp only [brakingDelta]
  by_cases hgt : remaining > brakingMaxTimeStep cfg
  · rw [if_pos hgt]
    have hms := brakingMaxTimeStep_lower cfg
    exact key _ (le_min (by linarith) (by linarith))
      ((min_le_left _ _).trans hgt.le)
  · rw [if_neg hgt]
    have h0 : (150 : ℝ) * (remaining - remaining) = 0 := by
      rw [sub_self, mul_zero]
    rw [h0, Nat.ceil_zero, Nat.lt_ceil]
    push_cast
    linarith

/-- The sub-stepped braking loop of UPBPlayerMovement::ApplyVelocityBraking,
including the final clamp-to-zero of a nearly zero result on normal exit.
A sub-step whose updated velocity has non-positive dot product with the
pre-braking velocity snaps the velocity to exactly zero and stops. -/
def brakingLoop (cfg : BrakingConfig) (friction decel : ℝ) (revAccel oldVel : Vec3)
    (remaining : ℝ) (v : Vec3) : Vec3 :=
  if _h1 : remaining < MIN_TICK_TIME then
    if isNearlyZero v KINDA_SMALL_NUMBER then (0 : Vec3) else v
  else if _h2 : Vec3.dot (v + (friction * decel * brakingDelta cfg remaining) • revAccel) oldVel ≤ 0 then
    (0 : Vec3)
  else
    brakingLoop cfg friction decel revAccel oldVel (remaining - brakingDelta cfg remaining)
      (v + (friction * decel * brakingDelta cfg remaining) • revAccel)
termination_by Nat.ceil ((150 : ℝ) * remaining)
decreasing_by
  exact brakingDelta_decreases cfg remaining (not_lt.mp _h1)

theorem brakingLoop_exit (cfg : BrakingConfig) (friction decel : ℝ)
    (revAccel oldVel : Vec3) (remaining : ℝ) (v : Vec3)
    (h : remaining < MIN_TICK_TIME) :
    brakingLoop cfg friction decel revAccel oldVel remaining v =
      if isNearlyZero v KINDA_SMALL_NUMBER then (0 : Vec3) else v := by
  rw [brakingLoop]
  rw [dif_pos h]

theorem brakingLoop_snap (cfg : BrakingConfig) (friction decel : ℝ)
    (revAccel oldVel : Vec3) (remaining : ℝ) (v : Vec3)
    (h1 : ¬ remaining < MIN_TICK_TIME)
    (h2 : Vec3.dot (v + (friction * decel * brakingDelta cfg remaining) • revAccel) oldVel ≤ 0) :
    brakingLoop cfg friction decel revAccel oldVel remaining v = 0 := by
  rw [brakingLoop]
  rw [dif_neg h1, dif_pos h2]

theorem brakingLoop_cont (cfg : BrakingConfig) (friction decel : ℝ)
    (revAccel oldVel : Vec3) (remaining : ℝ) (v : Vec3)
    (h1 : ¬ remaining < MIN_TICK_TIME)
    (h2 : ¬ Vec3.dot (v + (friction * decel * brakingDelta cfg remaining) • revAccel) oldVel ≤ 0) :
    brakingLoop cfg friction decel revAccel oldVel remaining v =
      brakingLoop cfg friction decel revAccel oldVel (remaining - brakingDelta cfg remaining)
        (v + (friction * decel * brakingDelta cfg remaining) • revAccel) := by
  rw [brakingLoop]
  rw [dif_neg h1, dif_neg h2]

/-- UPBPlayerMovement::ApplyVelocityBraking.  The HasValidData and
root-motion early-outs are out of modelling scope (they concern external
engine state); the near-zero velocity and minimum tick guards, the
effective friction and deceleration computation (the deceleration is
raised to at least the 2D speed), the zero-friction / zero-deceleration
early-outs and the sub-stepped loop are modelled from the source. -/
def applyVelocityBraking (cfg : BrakingConfig) (velocity : Vec3)
    (deltaTime friction brakingDeceleration : ℝ) : Vec3 :=
  if isNearlyZero velocity 0.1 ∨ deltaTime < MIN_TICK_TIME then velocity
  else
    let speed := Vec3.size2D velocity
    let frictionFactor := max 0 cfg.brakingFrictionFactor
    let fEff := max 0 (friction * frictionFactor)
    let dEff := max 0 (max brakingDeceleration speed)
    if |fEff| ≤ SMALL_NUMBER ∨ dEff = 0 then velocity
    else
      brakingLoop cfg fEff dEff (-(safeNormal velocity)) velocity deltaTime velocity

/-- Iterated per-tick application of ApplyVelocityBraking. -/
def iterateBraking (cfg : BrakingConfig) (deltaTime friction brakingDeceleration : ℝ) :
    ℕ → Vec3 → Vec3
  | 0, v => v
  | n + 1, v =>
      iterateBraking cfg deltaTime friction brakingDeceleration n
        (applyVelocityBraking cfg v deltaTime friction brakingDeceleration)

/-- The near-zero-velocity / minimum-tick entry guard of ApplyVelocityBraking
returns the velocity unchanged. -/
theorem applyVelocityBraking_guard1 (cfg : BrakingConfig) (velocity : Vec3)
    (deltaTime friction brakingDeceleration : ℝ)
    (h : isNearlyZero velocity 0.1 ∨ deltaTime < MIN_TICK_TIME) :
    applyVelocityBraking cfg velocity deltaTime friction brakingDeceleration = velocity := by
  simp only [applyVelocityBraking]
  rw [if_pos h]

/-- The zero-friction / zero-deceleration early-out of ApplyVelocityBraking
returns the velocity unchanged. -/
theorem applyVelocityBraking_guard2 (cfg : BrakingConfig) (velocity : Vec3)
    (deltaTime friction brakingDeceleration : ℝ)
    (h1 : ¬ (isNearlyZero velocity 0.1 ∨ deltaTime < MIN_TICK_TIME))
    (h2 : |max 0 (friction * max 0 cfg.brakingFrictionFactor)| ≤ SMALL_NUMBER ∨
      max 0 (max brakingDeceleration (Vec3.size2D velocity)) = 0) :
    applyVelocityBraking cfg velocity deltaTime friction brakingDeceleration = velocity := by
  simp only [applyVelocityBraking]
  rw [if_neg h1, if_pos h2]

/-- Off both guards, ApplyVelocityBraking runs the sub-stepped braking loop
at the effective friction and deceleration. -/
theorem applyVelocityBraking_eq_loop (cfg : BrakingConfig) (velocity : Vec3)
    (deltaTime friction brakingDeceleration : ℝ)
    (h1 : ¬ (isNearlyZero velocity 0.1 ∨ deltaTime < MIN_TICK_TIME))
    (h2 : ¬ (|max 0 (friction * max 0 cfg.brakingFrictionFactor)| ≤ SMALL_NUMBER ∨
      max 0 (max brakingDeceleration (Vec3.size2D velocity)) = 0)) :
    applyVelocityBraking cfg velocity deltaTime friction brakingDeceleration =
      brakingLoop cfg (max 0 (friction * max 0 cfg.brakingFrictionFactor))
        (max 0 (max brakingDeceleration (Vec3.size2D velocity)))
        (-(safeNormal velocity)) velocity deltaTime velocity := by
  simp only [applyVelocityBraking]
  rw [if_neg h1, if_neg h2]

theorem ceil_zero_remaining {remaining : ℝ}
    (h : Nat.ceil ((150 : ℝ) * remaining) ≤ 0) : remaining < MIN_TICK_TIME := by
  have h0 : Nat.ceil ((150 : ℝ) * remaining) = 0 := Nat.le_zero.mp h
  have h1 : (150 : ℝ) * remaining ≤ 0 := Nat.ceil_eq_zero.mp h0
  have : remaining ≤ 0 := by linarith
  calc remaining ≤ 0 := this
  _ < MIN_TICK_TIME := by norm_num [MIN_TICK_TIME]

/-- Every exit of the braking loop is either the exact zero vector or a
vector that is not nearly zero at the KINDA_SMALL_NUMBER tolerance. -/
theorem brakingLoop_result_shape (cfg : BrakingConfig) (f d : ℝ) (rev old : Vec3) :
    ∀ n : ℕ, ∀ remaining : ℝ, ∀ v : Vec3, Nat.ceil ((150 : ℝ) * remaining) ≤ n →
      brakingLoop cfg f d rev old remaining v = 0 ∨
        ¬ isNearlyZero (brakingLoop cfg f d rev old remaining v) KINDA_SMALL_NUMBER := by
  intro n
  induction n with
  | zero =>
      intro remaining v hceil
      have h1 : remaining < MIN_TICK_TIME := ceil_zero_remaining hceil
      rw [brakingLoop_exit _ _ _ _ _ _ _ h1]
      by_cases hnn : isNearlyZero v KINDA_SMALL_NUMBER
      · rw [if_pos hnn]; left; rfl
      · rw [if_neg hnn]; right; exact hnn
  | succ n ih =>
      intro remaining v hceil
      by_cases h1 : remaining < MIN_TICK_TIME
      · rw [brakingLoop_exit _ _ _ _ _ _ _ h1]
        by_cases hnn : isNearlyZero v KINDA_SMALL_NUMBER
        · rw [if_pos hnn]; left; rfl
        · rw [if_neg hnn]; right; exact hnn
      · by_cases h2 : Vec3.dot (v + (f * d * brakingDelta cfg remaining) • rev) old ≤ 0
        · rw [brakingLoop_snap _ _ _ _ _ _ _ h1 h2]; left; rfl
        · rw [brakingLoop_cont _ _ _ _ _ _ _ h1 h2]
          apply ih
          have hlt := brakingDelta_decreases cfg remaining (not_lt.mp h1)
          omega

/-- On the ray spanned by the pre-braking velocity, the braking loop keeps
the velocity a nonnegative multiple of the pre-braking velocity, and if the
total braking impulse exceeds the speed the loop snaps to exactly zero. -/
theorem brakingLoop_scalar_spec (cfg : BrakingConfig) (f d : ℝ) (V0 rev : Vec3)
    (hf : 0 ≤ f) (hd : 0 ≤ d) (hs : 0 < Vec3.size V0)
    (hrev : rev = -((1 / Vec3.size V0) • V0)) :
    ∀ n : ℕ, ∀ remaining c : ℝ, Nat.ceil ((150 : ℝ) * remaining) ≤ n → 0 < c →
      (∃ c2 : ℝ, 0 ≤ c2 ∧
        brakingLoop cfg f d rev V0 remaining (c • V0) = c2 • V0) ∧
      (0 < f → 0 < d → c * Vec3.size V0 ≤ f * d * (remaining - MIN_TICK_TIME) →
        brakingLoop cfg f d rev V0 remaining (c • V0) = 0) := by
  have hssq : Vec3.sizeSq V0 = Vec3.size V0 ^ 2 := (Vec3.size_sq V0).symm
  have hspos : 0 < Vec3.size V0 ^ 2 := by positivity
  have exitCase : ∀ remaining c : ℝ, remaining < MIN_TICK_TIME → 0 < c →
      (∃ c2 : ℝ, 0 ≤ c2 ∧
        brakingLoop cfg f d rev V0 remaining (c • V0) = c2 • V0) ∧
      (0 < f → 0 < d → c * Vec3.size V0 ≤ f * d * (remaining - MIN_TICK_TIME) →
        brakingLoop cfg f d rev V0 remaining (c • V0) = 0) := by
    intro remaining c h1 hc
    rw [brakingLoop_exit _ _ _ _ _ _ _ h1]
    constructor
    · by_cases hnn : isNearlyZero (c • V0) KINDA_SMALL_NUMBER
      · rw [if_pos hnn]
        exact ⟨0, le_refl 0, (Vec3.zero_smul V0).symm⟩
      · rw [if_neg hnn]
        exact ⟨c, hc.le, rfl⟩
    · intro hf' hd' himp
      exfalso
      have hneg : f * d * (remaining - MIN_TICK_TIME) < 0 :=
        mul_neg_of_pos_of_neg (mul_pos hf' hd') (by linarith)
      have hcs : 0 < c * Vec3.size V0 := mul_pos hc hs
      linarith
  intro n
  induction n with
  | zero =>
      intro remaining c hceil hc
      exact exitCase remaining c (ceil_zero_remaining hceil) hc
  | succ n ih =>
      intro remaining c hceil hc
      by_cases h1 : remaining < MIN_TICK_TIME
      · exact exitCase remaining c h1 hc
      · have hv' : c • V0 + (f * d * brakingDelta cfg remaining) • rev =
            (c - f * d * brakingDelta cfg remaining / Vec3.size V0) • V0 := by
          rw [hrev]
          ext <;> simp <;> ring
        by_cases h2 : Vec3.dot (c • V0 +
            (f * d * brakingDelta cfg remaining) • rev) V0 ≤ 0
        · rw [brakingLoop_snap _ _ _ _ _ _ _ h1 h2]
          refine ⟨⟨0, le_refl 0, (Vec3.zero_smul V0).symm⟩, fun _ _ _ => rfl⟩
        · rw [brakingLoop_cont _ _ _ _ _ _ _ h1 h2, hv']
          have hdotpos : 0 < (c - f * d * brakingDelta cfg remaining / Vec3.size V0) *
              Vec3.size V0 ^ 2 := by
            have hlt := not_le.mp h2
            rw [hv', Vec3.dot_smul_left, Vec3.dot_self_eq_sizeSq, hssq] at hlt
            exact hlt
          have hc' : 0 < c - f * d * brakingDelta cfg remaining / Vec3.size V0 := by
            rcases mul_pos_iff.mp hdotpos with ⟨h, -⟩ | ⟨-, h⟩
            · exact h
            · linarith
          have hceil2 : Nat.ceil ((150 : ℝ) * (remaining - brakingDelta cfg remaining)) ≤ n := by
            have hlt := brakingDelta_decreases cfg remaining (not_lt.mp h1)
            omega
          refine ⟨(ih _ _ hceil2 hc').1, ?_⟩
          intro hf' hd' himp
          apply (ih _ _ hceil2 hc').2 hf' hd'
          have hmul : (c - f * d * brakingDelta cfg remaining / Vec3.size V0) * Vec3.size V0 =
              c * Vec3.size V0 - f * d * brakingDelta cfg remaining := by
            rw [sub_mul, div_mul_cancel₀ _ (ne_of_gt hs)]
          rw [hmul]
          have hdist : f * d * (remaining - MIN_TICK_TIME) - f * d * brakingDelta cfg remaining =
              f * d * (remaining - brakingDelta cfg remaining - MIN_TICK_TIME) := by ring
          linarith [hdist ▸ sub_le_sub_right himp (f * d * brakingDelta cfg remaining)]

theorem safeNormal_of_not_nearlyZero {V : Vec3} (hnz : ¬ isNearlyZero V 0.1) :
    safeNormal V = (1 / Vec3.size V) • V := by
  have hsq := not_isNearlyZero_sizeSq hnz
  simp only [safeNormal]
  by_cases h1 : Vec3.sizeSq V = 1
  · rw [if_pos h1]
    have hs1 : Vec3.size V = 1 := by
      rw [Vec3.size, h1, Real.sqrt_one]
    rw [hs1, div_one, Vec3.one_smul]
  · rw [if_neg h1,
      if_neg (not_lt.mpr (le_trans (by norm_num [SMALL_NUMBER]) hsq.le))]

theorem size_pos_of_not_nearlyZero {V : Vec3} (hnz : ¬ isNearlyZero V 0.1) :
    0 < Vec3.size V :=
  Real.sqrt_pos.mpr (lt_trans (by norm_num) (not_isNearlyZero_sizeSq hnz))

/-- Claim C1 (amended): for every velocity that is not component-wise nearly
zero (tolerance 0.1), ApplyVelocityBraking returns a nonnegative scalar
multiple of the pre-braking velocity (so the direction is never reversed and
the dot product with the pre-braking velocity stays nonnegative); each
sub-step whose updated velocity has non-positive dot product with the
pre-braking velocity snaps the velocity to exactly the zero vector and stops;
a nearly zero loop result is clamped to exactly zero (the result is exactly
zero or not nearly zero); and the velocity reaches exactly zero in a single
call whenever the effective braking impulse
friction_eff * decel_eff * (deltaTime - MIN_TICK_TIME) is at least the speed. -/
theorem applyVelocityBraking_never_reverses (cfg : BrakingConfig) (V : Vec3)
    (dt friction decel : ℝ) (hnz : ¬ isNearlyZero V 0.1) :
    (∃ c : ℝ, 0 ≤ c ∧ applyVelocityBraking cfg V dt friction decel = c • V) ∧
    0 ≤ Vec3.dot (applyVelocityBraking cfg V dt friction decel) V ∧
    (applyVelocityBraking cfg V dt friction decel = 0 ∨
      ¬ isNearlyZero (applyVelocityBraking cfg V dt friction decel) KINDA_SMALL_NUMBER) ∧
    (SMALL_NUMBER < max 0 (friction * max 0 cfg.brakingFrictionFactor) →
      Vec3.size V ≤ max 0 (friction * max 0 cfg.brakingFrictionFactor) *
        max 0 (max decel (Vec3.size2D V)) * (dt - MIN_TICK_TIME) →
      applyVelocityBraking cfg V dt friction decel = 0) := by
  have hs : 0 < Vec3.size V := size_pos_of_not_nearlyZero hnz
  have hshape : ∀ W : Vec3, (∃ c : ℝ, 0 ≤ c ∧ W = c • V) → 0 ≤ Vec3.dot W V := by
    rintro W ⟨c, hc, rfl⟩
    rw [Vec3.dot_smul_left, Vec3.dot_self_eq_sizeSq]
    exact mul_nonneg hc (Vec3.sizeSq_nonneg V)
  have hVnotnear : ¬ isNearlyZero V KINDA_SMALL_NUMBER := by
    intro h
    exact hnz (isNearlyZero_mono (by norm_num [KINDA_SMALL_NUMBER]) h)
  by_cases hg1 : isNearlyZero V 0.1 ∨ dt < MIN_TICK_TIME
  · rw [applyVelocityBraking_guard1 cfg V dt friction decel hg1]
    have hdt : dt < MIN_TICK_TIME := hg1.resolve_left hnz
    have hid : (∃ c : ℝ, 0 ≤ c ∧ V = c • V) := ⟨1, zero_le_one, (Vec3.one_smul V).symm⟩
    refine ⟨hid, hshape V hid, Or.inr hVnotnear, ?_⟩
    intro hfe himp
    exfalso
    have hd0 : 0 ≤ max 0 (max decel (Vec3.size2D V)) := le_max_left _ _
    have hf0 : 0 ≤ max 0 (friction * max 0 cfg.brakingFrictionFactor) := le_max_left _ _
    have hneg : max 0 (friction * max 0 cfg.brakingFrictionFactor) *
        max 0 (max decel (Vec3.size2D V)) * (dt - MIN_TICK_TIME) ≤ 0 :=
      mul_nonpos_of_nonneg_of_nonpos (mul_nonneg hf0 hd0) (by linarith)
    have hsz : 0 < Vec3.size V := hs
    linarith
  · by_cases hg2 : |max 0 (friction * max 0 cfg.brakingFrictionFactor)| ≤ SMALL_NUMBER ∨
        max 0 (max decel (Vec3.size2D V)) = 0
    · rw [applyVelocityBraking_guard2 cfg V dt friction decel hg1 hg2]
      have hid : (∃ c : ℝ, 0 ≤ c ∧ V = c • V) := ⟨1, zero_le_one, (Vec3.one_smul V).symm⟩
      refine ⟨hid, hshape V hid, Or.inr hVnotnear, ?_⟩
      intro hfe himp
      exfalso
      rcases hg2 with hg2 | hg2
      · rw [abs_of_nonneg (le_max_left _ _)] at hg2
        linarith
      · rw [hg2] at himp
        have : max 0 (friction * max 0 cfg.brakingFrictionFactor) * 0 * (dt - MIN_TICK_TIME)
            = 0 := by rw [mul_zero, zero_mul]
        linarith
    · rw [applyVelocityBraking_eq_loop cfg V dt friction decel hg1 hg2,
        safeNormal_of_not_nearlyZero hnz]
      have hf : 0 ≤ max 0 (friction * max 0 cfg.brakingFrictionFactor) := le_max_left _ _
      have hd : 0 ≤ max 0 (max decel (Vec3.size2D V)) := le_max_left _ _
      have hmain := brakingLoop_scalar_spec cfg
        (max 0 (friction * max 0 cfg.brakingFrictionFactor))
        (max 0 (max decel (Vec3.size2D V))) V _ hf hd hs rfl
        (Nat.ceil ((150 : ℝ) * dt)) dt 1 (le_refl _) one_pos
      rw [Vec3.one_smul] at hmain
      have hshp := brakingLoop_result_shape cfg
        (max 0 (friction * max 0 cfg.brakingFrictionFactor))
        (max 0 (max decel (Vec3.size2D V)))
        (-((1 / Vec3.size V) • V)) V (Nat.ceil ((150 : ℝ) * dt)) dt V (le_refl _)
      refine ⟨hmain.1, hshape _ hmain.1, hshp, ?_⟩
      intro hfe himp
      push_neg at hg2
      have hfpos : 0 < max 0 (friction * max 0 cfg.brakingFrictionFactor) := by
        have : (0 : ℝ) < SMALL_NUMBER := by norm_num [SMALL_NUMBER]
        linarith
      have hdpos : 0 < max 0 (max decel (Vec3.size2D V)) :=
        lt_of_le_of_ne hd (Ne.symm hg2.2)
      apply hmain.2 hfpos hdpos
      rw [one_mul]
      exact himp

theorem size2D_300 : Vec3.size2D ⟨300, 0, 0⟩ = 300 := by
  simp only [Vec3.size2D, Vec3.size2DSq, Vec3.mk_x, Vec3.mk_y]
  rw [show (300 : ℝ) ^ 2 + 0 ^ 2 = 300 ^ 2 by norm_num]
  exact Real.sqrt_sq (by norm_num)

theorem size_300 : Vec3.size ⟨300, 0, 0⟩ = 300 := by
  simp only [Vec3.size, Vec3.sizeSq, Vec3.mk_x, Vec3.mk_y, Vec3.mk_z]
  rw [show (300 : ℝ) ^ 2 + 0 ^ 2 + 0 ^ 2 = 300 ^ 2 by norm_num]
  exact Real.sqrt_sq (by norm_num)

/-- Witness for C1 at the literal scenario of the specification: friction 4,
deceleration 190.5, one full second of braking from speed 300 reaches
exactly zero. -/
theorem applyVelocityBraking_never_reverses_witness :
    applyVelocityBraking ⟨1, 0.015⟩ ⟨300, 0, 0⟩ 1 4 190.5 = 0 := by
  have hnz : ¬ isNearlyZero (⟨300, 0, 0⟩ : Vec3) 0.1 := by
    simp only [isNearlyZero, Vec3.mk_x]
    intro h
    have := h.1
    rw [abs_of_nonneg (by norm_num : (0:ℝ) ≤ 300)] at this
    norm_num at this
  apply (applyVelocityBraking_never_reverses ⟨1, 0.015⟩ ⟨300, 0, 0⟩ 1 4 190.5 hnz).2.2.2
  · simp only [BrakingConfig.brakingFrictionFactor]
    rw [max_eq_right (by norm_num : (0:ℝ) ≤ 1)]
    rw [max_eq_right (by norm_num : (0:ℝ) ≤ 4 * 1)]
    norm_num [SMALL_NUMBER]
  · simp only [BrakingConfig.brakingFrictionFactor, size2D_300, size_300]
    rw [max_eq_right (by norm_num : (0:ℝ) ≤ 1)]
    rw [max_eq_right (by norm_num : (0:ℝ) ≤ 4 * 1)]
    rw [max_eq_right (by norm_num : (190.5:ℝ) ≤ 300)]
    rw [max_eq_right (by norm_num : (0:ℝ) ≤ 300)]
    norm_num [MIN_TICK_TIME]

/-- A velocity of magnitude above 0.1 whose components are all within the
component-wise 0.1 tolerance is left untouched by ApplyVelocityBraking. -/
theorem applyVelocityBraking_fix_small :
    applyVelocityBraking ⟨1, 0.015⟩ ⟨0.08, 0.08, 0.08⟩ 0.015 4 190.5 =
      ⟨0.08, 0.08, 0.08⟩ := by
  apply applyVelocityBraking_guard1
  left
  have h08 : |(0.08 : ℝ)| ≤ 0.1 := by
    rw [abs_of_nonneg (by norm_num : (0:ℝ) ≤ 0.08)]
    norm_num
  exact ⟨h08, h08, h08⟩

/-- Counterexample to C1 as stated: the starting velocity (0.08, 0.08, 0.08)
has magnitude above the 0.1 near-zero threshold, friction 4 and braking
deceleration 190.5 are positive, yet iterating ApplyVelocityBraking to
convergence never reaches the zero vector: the component-wise near-zero
entry guard makes every call a no-op. -/
theorem applyVelocityBraking_convergence_counterexample :
    0.1 < Vec3.size ⟨0.08, 0.08, 0.08⟩ ∧ (0 : ℝ) < 4 ∧ (0 : ℝ) < 190.5 ∧
    ¬ ∃ n : ℕ, iterateBraking ⟨1, 0.015⟩ 0.015 4 190.5 n ⟨0.08, 0.08, 0.08⟩ = 0 := by
  refine ⟨?_, by norm_num, by norm_num, ?_⟩
  · simp only [Vec3.size, Vec3.sizeSq, Vec3.mk_x, Vec3.mk_y, Vec3.mk_z]
    rw [show (0.1 : ℝ) = Real.sqrt (0.1 ^ 2) from (Real.sqrt_sq (by norm_num)).symm]
    apply Real.sqrt_lt_sqrt (by norm_num)
    norm_num
  · rintro ⟨n, hn⟩
    have hfix : ∀ m : ℕ, iterateBraking ⟨1, 0.015⟩ 0.015 4 190.5 m ⟨0.08, 0.08, 0.08⟩ =
        ⟨0.08, 0.08, 0.08⟩ := by
      intro m
      induction m with
      | zero => rfl
      | succ m ihm =>
          rw [iterateBraking, applyVelocityBraking_fix_small]
          exact ihm
    rw [hfix n] at hn
    have hx : (0.08 : ℝ) = 0 := congrArg Vec3.x hn
    norm_num at hx

/-- Claim C6 (amended): ApplyVelocityBraking is a no-op when the friction
argument is 0, when the velocity is already nearly zero, or when the braking
deceleration argument is 0 and the 2D speed is also zero.  A zero braking
deceleration alone is not sufficient: the deceleration is raised to at least
the current 2D speed before the zero test. -/
theorem applyVelocityBraking_noop (cfg : BrakingConfig) (V : Vec3) (dt friction decel : ℝ)
    (h : friction = 0 ∨ isNearlyZero V 0.1 ∨ (decel = 0 ∧ V.x = 0 ∧ V.y = 0)) :
    applyVelocityBraking cfg V dt friction decel = V := by
  by_cases hg1 : isNearlyZero V 0.1 ∨ dt < MIN_TICK_TIME
  · exact applyVelocityBraking_guard1 cfg V dt friction decel hg1
  · rcases h with h | h | h
    · apply applyVelocityBraking_guard2 cfg V dt friction decel hg1
      left
      rw [h, zero_mul, max_self]
      rw [abs_of_nonneg (le_refl 0)]
      norm_num [SMALL_NUMBER]
    · exact absurd (Or.inl h) hg1
    · apply applyVelocityBraking_guard2 cfg V dt friction decel hg1
      right
      have hsz : Vec3.size2D V = 0 := by
        simp only [Vec3.size2D, Vec3.size2DSq, h.2.1, h.2.2]
        norm_num
      rw [hsz, h.1, max_self, max_self]

/-- Witness for C6 at friction 0. -/
theorem applyVelocityBraking_noop_witness :
    applyVelocityBraking ⟨1, 0.015⟩ ⟨300, 0, 0⟩ 0.015 0 190.5 = ⟨300, 0, 0⟩ :=
  applyVelocityBraking_noop ⟨1, 0.015⟩ ⟨300, 0, 0⟩ 0.015 0 190.5 (Or.inl rfl)

/-- Counterexample to C6 as stated: with a braking deceleration argument of
exactly 0 but a moving velocity, ApplyVelocityBraking is not a no-op; the
deceleration is raised to the 2D speed and the call brakes the velocity
(here all the way to zero within one second). -/
theorem applyVelocityBraking_decel_zero_counterexample :
    applyVelocityBraking ⟨1, 0.015⟩ ⟨300, 0, 0⟩ 1 4 0 ≠ ⟨300, 0, 0⟩ := by
  have hnz : ¬ isNearlyZero (⟨300, 0, 0⟩ : Vec3) 0.1 := by
    intro h
    have h1 := h.1
    simp only [Vec3.mk_x] at h1
    rw [abs_of_nonneg (by norm_num : (0:ℝ) ≤ 300)] at h1
    norm_num at h1
  have hs : 0 < Vec3.size (⟨300, 0, 0⟩ : Vec3) := size_pos_of_not_nearlyZero hnz
  have heval : applyVelocityBraking ⟨1, 0.015⟩ ⟨300, 0, 0⟩ 1 4 0 = 0 := by
    rw [applyVelocityBraking_eq_loop _ _ _ _ _
      (by
        rintro (h | h)
        · exact hnz h
        · norm_num [MIN_TICK_TIME] at h)
      (by
        rintro (h | h)
        · rw [abs_of_nonneg (le_max_left _ _)] at h
          norm_num [max_def, SMALL_NUMBER] at h
        · rw [size2D_300] at h
          norm_num [max_def] at h)]
    rw [safeNormal_of_not_nearlyZero hnz]
    have hmain := brakingLoop_scalar_spec ⟨1, 0.015⟩
      (max 0 (4 * max 0 (1 : ℝ))) (max 0 (max 0 (Vec3.size2D ⟨300, 0, 0⟩)))
      ⟨300, 0, 0⟩ _ (le_max_left _ _) (le_max_left _ _) hs rfl
      (Nat.ceil ((150 : ℝ) * 1)) 1 1 (le_refl _) one_pos
    rw [Vec3.one_smul] at hmain
    apply hmain.2
    · norm_num [max_def]
    · rw [size2D_300]
      norm_num [max_def]
    · rw [one_mul, size_300, size2D_300]
      norm_num [max_def, MIN_TICK_TIME]
  rw [heval]
  intro h
  have h3 := congrArg Vec3.x h
  norm_num at h3

/-- State and configuration read by UPBPlayerMovement::CalcVelocity.
MaxSpeed models FMath::Max(GetMaxSpeed() * AnalogInputModifier,
GetMinAnalogSpeed()); bForceMaxAccel (an engine debug path) is out of
modelling scope.  IsExceedingMaxSpeed of the engine is modelled as a strict
comparison of the squared speed against the squared max speed. -/
structure CalcVelCtx where
  surfaceFriction : ℝ
  groundAccelerationMultiplier : ℝ
  airAccelerationMultiplier : ℝ
  airSpeedCap : ℝ
  axisSpeedLimit : ℝ
  maxSpeed : ℝ
  bUseSeparateBrakingFriction : Bool
  brakingFriction : ℝ
  brakingCfg : BrakingConfig
  bMovingOnGround : Bool
  bBrakingWindowElapsed : Bool
  bCheatFlying : Bool
  bOnLadder : Bool
  bFalling : Bool
  maxWalkSpeedCrouched : ℝ
  speedMultMin : ℝ
  speedMultMax : ℝ
  defaultStepHeight : ℝ
  minStepHeight : ℝ
  defaultWalkableFloorZ : ℝ
  lookVec : Vec3
  actorForward : Vec3
  sprinting : Bool
  maxAccelerationCfg : ℝ

/-- The ground braking phase of CalcVelocity: braking is applied only when
moving on ground with the braking window elapsed, followed by the
restore-to-max-speed guard for velocities that started above the cap. -/
def calcVelocityBrakedVelocity (ctx : CalcVelCtx) (v acceleration : Vec3)
    (dt friction brakingDeceleration maxSpeed : ℝ) : Vec3 :=
  if ctx.bMovingOnGround && ctx.bBrakingWindowElapsed then
    let bVelocityOverMax := Vec3.sizeSq v > maxSpeed ^ 2
    let actualBrakingFriction :=
      (if ctx.bUseSeparateBrakingFriction then ctx.brakingFriction else friction) *
        ctx.surfaceFriction
    let vb := applyVelocityBraking ctx.brakingCfg v dt actualBrakingFriction brakingDeceleration
    if bVelocityOverMax ∧ Vec3.sizeSq vb < maxSpeed ^ 2 ∧ Vec3.dot acceleration v > 0 then
      maxSpeed • safeNormal v
    else vb
  else v

/-- The noclip (bCheatFlying) branch of CalcVelocity. -/
def noclipPhase (ctx : CalcVelCtx) (acceleration : Vec3) : Vec3 :=
  if isNearlyZero acceleration KINDA_SMALL_NUMBER then 0
  else
    let lookVec2D : Vec3 := ⟨ctx.actorForward.x, ctx.actorForward.y, 0⟩
    let perpAccel := (Vec3.dot lookVec2D acceleration) • lookVec2D
    let tangAccel := acceleration - perpAccel
    let dir := cosineAngle2D acceleration ctx.lookVec
    let clampSize := if ctx.sprinting then 2 * ctx.maxAccelerationCfg else ctx.maxAccelerationCfg
    clampedToSize ((dir * Vec3.size2D perpAccel) • ctx.lookVec + tangAccel) clampSize clampSize

/-- The walk-move acceleration phase of CalcVelocity: clamp the input
acceleration to the max speed, compute the veer, compute the permissible
added speed with the air speed cap applied while airborne, and add the
acceleration clamped 2D-wise to the permissible added speed. -/
def walkMovePhase (ctx : CalcVelCtx) (v acceleration : Vec3) (dt maxSpeed : ℝ)
    (bIsGroundMove : Bool) : Vec3 :=
  if isNearlyZero acceleration KINDA_SMALL_NUMBER then v
  else
    let accel := clampedToMaxSize2D acceleration maxSpeed
    let accelDir := safeNormal2D accel
    let veer := v.x * accelDir.x + v.y * accelDir.y
    let addSpeed :=
      Vec3.size2D (if bIsGroundMove then accel else clampedToMaxSize2D accel ctx.airSpeedCap) - veer
    if addSpeed > 0 then
      let accelerationMultiplier :=
        if bIsGroundMove then ctx.groundAccelerationMultiplier else ctx.airAccelerationMultiplier
      v + clampedToMaxSize2D
        ((accelerationMultiplier * ctx.surfaceFriction * dt) • accel) addSpeed
    else v

/-- The dynamic step-height and walkable-floor-Z policy at the end of
CalcVelocity, as a function of the squared 2D speed of the updated
velocity.  Returns the pair (MaxStepHeight, WalkableFloorZ). -/
def stepHeightPolicy (ctx : CalcVelCtx) (speedSq : ℝ) : ℝ × ℝ :=
  if ctx.bOnLadder = true ∨ speedSq ≤ ctx.maxWalkSpeedCrouched ^ 2 then
    (ctx.defaultStepHeight, ctx.defaultWalkableFloorZ)
  else
    let speed := Real.sqrt speedSq
    let speedScale := (speed - ctx.speedMultMin) / (ctx.speedMultMax - ctx.speedMultMin)
    let speedMultiplier0 := (fclamp speedScale 0 1) ^ 2
    let speedMultiplier :=
      if ctx.bFalling = false then max ((1 - ctx.surfaceFriction) * speedMultiplier0) 0
      else speedMultiplier0
    (lerp ctx.defaultStepHeight ctx.minStepHeight speedMultiplier,
     lerp ctx.defaultWalkableFloorZ 0.9848 speedMultiplier)

/-- UPBPlayerMovement::CalcVelocity.  Returns the updated velocity together
with the updated MaxStepHeight and WalkableFloorZ.  The HasValidData,
root-motion and simulated-proxy early-outs, bForceMaxAccel and the ladder
branch body (which is empty in the source) are out of modelling scope. -/
def calcVelocity (ctx : CalcVelCtx) (v acceleration : Vec3)
    (dt friction brakingDeceleration : ℝ) (bFluid : Bool)
    (stepHeight0 floorZ0 : ℝ) : Vec3 × ℝ × ℝ :=
  if dt < MIN_TICK_TIME then (v, stepHeight0, floorZ0)
  else
    let friction1 := max 0 friction
    let bIsGroundMove := ctx.bMovingOnGround && ctx.bBrakingWindowElapsed
    let v1 := calcVelocityBrakedVelocity ctx v acceleration dt friction1
      brakingDeceleration ctx.maxSpeed
    let v2 := if bFluid then (1 - min (friction1 * dt) 1) • v1 else v1
    let v3 := clampAxis2D v2 ctx.axisSpeedLimit
    let v4 :=
      if ctx.bCheatFlying then noclipPhase ctx acceleration
      else if ctx.bOnLadder then v3
      else walkMovePhase ctx v3 acceleration dt ctx.maxSpeed bIsGroundMove
    let v5 := clampAxis2D v4 ctx.axisSpeedLimit
    let sp := stepHeightPolicy ctx (Vec3.size2DSq v5)
    (v5, sp.1, sp.2)

/-- The braking-window bookkeeping of UPBPlayerMovement::TickComponent:
while on ground the elapsed time accumulates (only until the window has
elapsed) and the window becomes elapsed at the threshold; off ground both
are reset.  Returns (bBrakingWindowElapsed, BrakingWindowTimeElapsed). -/
def brakingWindowTick (bMovingOnGround bBrakingWindowElapsed : Bool)
    (timeElapsed dt brakingWindow : ℝ) : Bool × ℝ :=
  if bMovingOnGround then
    let t := if bBrakingWindowElapsed = false then timeElapsed + dt * 1000 else timeElapsed
    if t ≥ brakingWindow then (true, 0) else (bBrakingWindowElapsed, t)
  else (false, 0)

/-- The dynamic step-height and slope policy as worded by the
specification: defaults at crouch speed or on a ladder, otherwise an
interpolation multiplier clamp01((speed - SpeedMultMin) /
(SpeedMultMax - SpeedMultMin)) squared, additionally scaled by
(1 - SurfaceFriction) floored at zero when not falling, interpolating
MaxStepHeight from the default toward the minimum step height. -/
def stepHeightPolicySpec (ctx : CalcVelCtx) (speedSq : ℝ) : ℝ × ℝ :=
  if ctx.bOnLadder = true ∨ speedSq ≤ ctx.maxWalkSpeedCrouched ^ 2 then
    (ctx.defaultStepHeight, ctx.defaultWalkableFloorZ)
  else
    let mult0 := (min 1 (max 0 ((Real.sqrt speedSq - ctx.speedMultMin) /
      (ctx.speedMultMax - ctx.speedMultMin)))) ^ 2
    let mult :=
      if ctx.bFalling = false then max ((1 - ctx.surfaceFriction) * mult0) 0 else mult0
    (ctx.defaultStepHeight + mult * (ctx.minStepHeight - ctx.defaultStepHeight),
     ctx.defaultWalkableFloorZ + mult * (0.9848 - ctx.defaultWalkableFloorZ))

/-- Claim C5: the step-height / walkable-floor-Z policy at the end of
CalcVelocity computes exactly the specified interpolation: defaults when
the squared 2D speed is at most the crouch speed squared or on a ladder,
otherwise interpolation by the squared clamped speed scale, further scaled
by (1 - SurfaceFriction) floored at zero when not falling. -/
theorem stepHeightPolicy_matches_spec (ctx : CalcVelCtx) (speedSq : ℝ) :
    stepHeightPolicy ctx speedSq = stepHeightPolicySpec ctx speedSq := by
  simp only [stepHeightPolicy, stepHeightPolicySpec, lerp, fclamp_eq_min_max]

/-- Claim C7: the braking-window invariant.  Off ground the window resets
to not elapsed with zero accumulated time; the accumulated time increases
(by the tick delta-time in milliseconds) only on ticks spent on ground with
the window not yet elapsed; the window becomes elapsed once the accumulated
time reaches the threshold; and the ground braking phase of CalcVelocity
leaves the velocity untouched unless on ground with the window elapsed. -/
theorem brakingWindow_invariant :
    (∀ (e : Bool) (t dt w : ℝ), brakingWindowTick false e t dt w = (false, 0)) ∧
    (∀ (g e : Bool) (t dt w : ℝ), 0 ≤ t → t < (brakingWindowTick g e t dt w).2 →
      g = true ∧ e = false ∧ (brakingWindowTick g e t dt w).2 = t + dt * 1000) ∧
    (∀ (t dt w : ℝ), t + dt * 1000 ≥ w → brakingWindowTick true false t dt w = (true, 0)) ∧
    (∀ (ctx : CalcVelCtx) (v a : Vec3) (dt f bd ms : ℝ),
      ctx.bBrakingWindowElapsed = false ∨ ctx.bMovingOnGround = false →
      calcVelocityBrakedVelocity ctx v a dt f bd ms = v) := by
  have hacc : ∀ t dt w : ℝ, brakingWindowTick true false t dt w =
      if t + dt * 1000 ≥ w then (true, 0) else (false, t + dt * 1000) := fun _ _ _ => rfl
  have helap : ∀ t dt w : ℝ, brakingWindowTick true true t dt w =
      if t ≥ w then (true, 0) else (true, t) := fun _ _ _ => rfl
  refine ⟨fun e t dt w => rfl, ?_, ?_, ?_⟩
  · intro g e t dt w ht hlt
    cases g with
    | false =>
        have h0 : t < (0 : ℝ) := hlt
        linarith
    | true =>
        cases e with
        | true =>
            exfalso
            rw [helap] at hlt
            by_cases hw : t ≥ w
            · rw [if_pos hw] at hlt
              have h0 : t < (0 : ℝ) := hlt
              linarith
            · rw [if_neg hw] at hlt
              have h0 : t < t := hlt
              linarith
        | false =>
            refine ⟨rfl, rfl, ?_⟩
            rw [hacc] at hlt ⊢
            by_cases hw : t + dt * 1000 ≥ w
            · rw [if_pos hw] at hlt
              have h0 : t < (0 : ℝ) := hlt
              linarith
            · rw [if_neg hw]
  · intro t dt w hw
    rw [hacc, if_pos hw]
  · intro ctx v a dt f bd ms h
    rcases h with h | h <;> simp [calcVelocityBrakedVelocity, h]

/-- Witness for C7: a grounded tick with 10ms accumulated and a 15ms window
crosses the threshold after a 10ms tick. -/
theorem brakingWindow_invariant_witness :
    brakingWindowTick true false 10 0.01 15 = (true, 0) :=
  brakingWindow_invariant.2.2.1 10 0.01 15 (by norm_num)

theorem size2D_scale_mk (s xv yv zv : ℝ) (v : Vec3) (hx : xv = s * v.x) (hy : yv = s * v.y) :
    Vec3.size2D ⟨xv, yv, zv⟩ = |s| * Vec3.size2D v := by
  subst hx hy
  simp only [Vec3.size2D, Vec3.size2DSq, Vec3.mk_x, Vec3.mk_y]
  rw [show (s * v.x) ^ 2 + (s * v.y) ^ 2 = s ^ 2 * (v.x ^ 2 + v.y ^ 2) by ring]
  rw [Real.sqrt_mul (sq_nonneg s), Real.sqrt_sq_eq_abs]

/-- Characterization of GetClampedToMaxSize2D for a usable max size: the
result scales the two lateral components by a positive factor, keeps the
vertical component, and its 2D size is the minimum of the original 2D size
and the max size. -/
theorem clamped2D_spec (v : Vec3) (m : ℝ) (hm : KINDA_SMALL_NUMBER ≤ m)
    (hv : 0 < Vec3.size2D v) :
    ∃ s : ℝ, 0 < s ∧ clampedToMaxSize2D v m = ⟨s * v.x, s * v.y, v.z⟩ ∧
      Vec3.size2D (clampedToMaxSize2D v m) = min (Vec3.size2D v) m := by
  have hm0 : 0 < m := lt_of_lt_of_le (by norm_num [KINDA_SMALL_NUMBER]) hm
  simp only [clampedToMaxSize2D]
  rw [if_neg (not_lt.mpr hm)]
  by_cases hbig : Vec3.size2DSq v > m ^ 2
  · rw [if_pos hbig]
    have hgt : m < Vec3.size2D v := by
      have h1 : Real.sqrt (m ^ 2) < Real.sqrt (Vec3.size2DSq v) :=
        Real.sqrt_lt_sqrt (sq_nonneg m) hbig
      rwa [Real.sqrt_sq hm0.le] at h1
    refine ⟨m / Vec3.size2D v, div_pos hm0 hv, ?_, ?_⟩
    · ext
      · exact mul_comm v.x (m / Vec3.size2D v)
      · exact mul_comm v.y (m / Vec3.size2D v)
      · rfl
    · rw [size2D_scale_mk (m / Vec3.size2D v) _ _ _ v (by ring) (by ring)]
      rw [abs_of_pos (div_pos hm0 hv)]
      rw [div_mul_cancel₀ _ (ne_of_gt hv)]
      rw [min_eq_right hgt.le]
  · rw [if_neg hbig]
    have hle : Vec3.size2D v ≤ m := by
      have h1 : Real.sqrt (Vec3.size2DSq v) ≤ Real.sqrt (m ^ 2) :=
        Real.sqrt_le_sqrt (not_lt.mp hbig)
      rwa [Real.sqrt_sq hm0.le] at h1
    refine ⟨1, one_pos, ?_, ?_⟩
    · ext
      · exact (one_mul v.x).symm
      · exact (one_mul v.y).symm
      · rfl
    · rw [min_eq_left hle]

/-- GetSafeNormal2D scales the two lateral components by a nonnegative
factor and zeroes the vertical component. -/
theorem safeNormal2D_scale (v : Vec3) :
    ∃ t : ℝ, 0 ≤ t ∧ safeNormal2D v = ⟨t * v.x, t * v.y, 0⟩ := by
  simp only [safeNormal2D]
  by_cases h1 : Vec3.size2DSq v = 1
  · rw [if_pos h1]
    exact ⟨1, zero_le_one, by ext <;> simp⟩
  · rw [if_neg h1]
    by_cases h2 : Vec3.size2DSq v < SMALL_NUMBER
    · rw [if_pos h2]
      exact ⟨0, le_refl 0, by ext <;> simp⟩
    · rw [if_neg h2]
      refine ⟨1 / Vec3.size2D v, div_nonneg zero_le_one (Vec3.size2D_nonneg v), ?_⟩
      ext <;> simp

theorem size2D_gt_of_not_nearlyZero (A : Vec3) (hAz : A.z = 0)
    (h : ¬ isNearlyZero A KINDA_SMALL_NUMBER) :
    KINDA_SMALL_NUMBER < Vec3.size2D A := by
  simp only [isNearlyZero, not_and_or, not_le] at h
  rcases h with h | h | h
  · exact lt_of_lt_of_le h (Vec3.abs_x_le_size2D A)
  · exact lt_of_lt_of_le h (Vec3.abs_y_le_size2D A)
  · rw [hAz] at h
    norm_num [KINDA_SMALL_NUMBER] at h

theorem size2DSq_add_perp (V a : Vec3) (hperp : V.x * a.x + V.y * a.y = 0) :
    Vec3.size2DSq (V + a) = Vec3.size2DSq V + Vec3.size2DSq a := by
  simp only [Vec3.size2DSq, Vec3.add_x, Vec3.add_y]
  have h : (V.x + a.x) ^ 2 + (V.y + a.y) ^ 2 =
      V.x ^ 2 + V.y ^ 2 + (a.x ^ 2 + a.y ^ 2) + 2 * (V.x * a.x + V.y * a.y) := by
    ring
  rw [h, hperp, mul_zero, add_zero]

theorem sqrt_sq_add_sq_le (S t : ℝ) (hS : 0 ≤ S) (ht : 0 ≤ t) :
    Real.sqrt (S ^ 2 + t ^ 2) ≤ S + t := by
  have hexp := add_sq S t
  have hst : 0 ≤ S * t := mul_nonneg hS ht
  calc Real.sqrt (S ^ 2 + t ^ 2) ≤ Real.sqrt ((S + t) ^ 2) :=
        Real.sqrt_le_sqrt (by linarith)
  _ = S + t := Real.sqrt_sq (by linarith)

theorem clampAxis2D_eq_self (v : Vec3) (l : ℝ) (h1 : |v.x| ≤ l) (h2 : |v.y| ≤ l) :
    clampAxis2D v l = v := by
  obtain ⟨h1a, h1b⟩ := abs_le.mp h1
  obtain ⟨h2a, h2b⟩ := abs_le.mp h2
  simp only [clampAxis2D]
  rw [fclamp_eq_self _ _ _ h1a h1b, fclamp_eq_self _ _ _ h2a h2b]

/-- Shape of the airborne walk-move phase: with a usable input acceleration,
zero veer and positive permissible added speed, it adds the scaled
acceleration clamped 2D-wise to the permissible added speed. -/
theorem walkMovePhase_air_shape (ctx : CalcVelCtx) (V A : Vec3) (dt ms : ℝ)
    (hAnz : ¬ isNearlyZero A KINDA_SMALL_NUMBER)
    (hveer : V.x * (safeNormal2D (clampedToMaxSize2D A ms)).x +
      V.y * (safeNormal2D (clampedToMaxSize2D A ms)).y = 0)
    (haddpos : 0 < Vec3.size2D (clampedToMaxSize2D (clampedToMaxSize2D A ms) ctx.airSpeedCap)) :
    walkMovePhase ctx V A dt ms false = V + clampedToMaxSize2D
      ((ctx.airAccelerationMultiplier * ctx.surfaceFriction * dt) • clampedToMaxSize2D A ms)
      (Vec3.size2D (clampedToMaxSize2D (clampedToMaxSize2D A ms) ctx.airSpeedCap)) := by
  simp only [walkMovePhase]
  rw [if_neg hAnz]
  simp only [Bool.false_eq_true, if_false]
  rw [hveer, sub_zero, if_pos haddpos]

/-- In the air branch of the walk-move phase, a nonzero input acceleration
perpendicular to the current horizontal velocity adds a nonzero
acceleration increment that is still perpendicular to the velocity and
whose 2D size is at most the air speed cap. -/
theorem walkMovePhase_air_perp (ctx : CalcVelCtx) (V A : Vec3) (dt ms : ℝ)
    (hAz : A.z = 0) (hAnz : ¬ isNearlyZero A KINDA_SMALL_NUMBER)
    (hperp : V.x * A.x + V.y * A.y = 0)
    (hfric : 0 < ctx.surfaceFriction) (hmult : 0 < ctx.airAccelerationMultiplier)
    (hdt : 0 < dt) (hms : KINDA_SMALL_NUMBER ≤ ms)
    (hcap : KINDA_SMALL_NUMBER ≤ ctx.airSpeedCap) :
    ∃ a : Vec3, walkMovePhase ctx V A dt ms false = V + a ∧
      V.x * a.x + V.y * a.y = 0 ∧ 0 < Vec3.size2D a ∧ Vec3.size2D a ≤ ctx.airSpeedCap := by
  have hA2 : KINDA_SMALL_NUMBER < Vec3.size2D A := size2D_gt_of_not_nearlyZero A hAz hAnz
  have hApos : 0 < Vec3.size2D A := lt_trans (by norm_num [KINDA_SMALL_NUMBER]) hA2
  obtain ⟨s1, hs1, haccel_eq, haccel_sz⟩ := clamped2D_spec A ms hms hApos
  have haccel2 : KINDA_SMALL_NUMBER ≤ Vec3.size2D (clampedToMaxSize2D A ms) := by
    rw [haccel_sz]; exact le_min hA2.le hms
  have haccelpos : 0 < Vec3.size2D (clampedToMaxSize2D A ms) :=
    lt_of_lt_of_le (by norm_num [KINDA_SMALL_NUMBER]) haccel2
  obtain ⟨s2, hs2, hcap_eq, hcap_sz⟩ :=
    clamped2D_spec (clampedToMaxSize2D A ms) ctx.airSpeedCap hcap haccelpos
  obtain ⟨t, ht0, hdir⟩ := safeNormal2D_scale (clampedToMaxSize2D A ms)
  have hveer : V.x * (safeNormal2D (clampedToMaxSize2D A ms)).x +
      V.y * (safeNormal2D (clampedToMaxSize2D A ms)).y = 0 := by
    rw [hdir]
    simp only [Vec3.mk_x, Vec3.mk_y]
    have hax : (clampedToMaxSize2D A ms).x = s1 * A.x := by rw [haccel_eq]
    have hay : (clampedToMaxSize2D A ms).y = s1 * A.y := by rw [haccel_eq]
    rw [hax, hay]
    linear_combination (t * s1) * hperp
  have haddsz : KINDA_SMALL_NUMBER ≤
      Vec3.size2D (clampedToMaxSize2D (clampedToMaxSize2D A ms) ctx.airSpeedCap) := by
    rw [hcap_sz]; exact le_min haccel2 hcap
  have haddpos : (0 : ℝ) <
      Vec3.size2D (clampedToMaxSize2D (clampedToMaxSize2D A ms) ctx.airSpeedCap) :=
    lt_of_lt_of_le (by norm_num [KINDA_SMALL_NUMBER]) haddsz
  -- the scaled acceleration
  have hk : 0 < ctx.airAccelerationMultiplier * ctx.surfaceFriction * dt := by positivity
  have hw_sz : Vec3.size2D ((ctx.airAccelerationMultiplier * ctx.surfaceFriction * dt) •
      clampedToMaxSize2D A ms) =
      (ctx.airAccelerationMultiplier * ctx.surfaceFriction * dt) *
        Vec3.size2D (clampedToMaxSize2D A ms) :=
    Vec3.size2D_smul _ _ hk.le
  have hwpos : 0 < Vec3.size2D ((ctx.airAccelerationMultiplier * ctx.surfaceFriction * dt) •
      clampedToMaxSize2D A ms) := by
    rw [hw_sz]; positivity
  obtain ⟨s3, hs3, ha_eq, ha_sz⟩ := clamped2D_spec
    ((ctx.airAccelerationMultiplier * ctx.surfaceFriction * dt) • clampedToMaxSize2D A ms)
    (Vec3.size2D (clampedToMaxSize2D (clampedToMaxSize2D A ms) ctx.airSpeedCap)) haddsz hwpos
  rw [walkMovePhase_air_shape ctx V A dt ms hAnz hveer haddpos]
  refine ⟨_, rfl, ?_, ?_, ?_⟩
  · rw [ha_eq]
    simp only [Vec3.mk_x, Vec3.mk_y, Vec3.smul_x, Vec3.smul_y]
    have hax : (clampedToMaxSize2D A ms).x = s1 * A.x := by rw [haccel_eq]
    have hay : (clampedToMaxSize2D A ms).y = s1 * A.y := by rw [haccel_eq]
    rw [hax, hay]
    linear_combination (s3 * (ctx.airAccelerationMultiplier * ctx.surfaceFriction * dt) * s1) *
      hperp
  · rw [ha_sz]
    exact lt_min hwpos haddpos
  · rw [ha_sz]
    have h1 := min_le_right
      (Vec3.size2D ((ctx.airAccelerationMultiplier * ctx.surfaceFriction * dt) •
        clampedToMaxSize2D A ms))
      (Vec3.size2D (clampedToMaxSize2D (clampedToMaxSize2D A ms) ctx.airSpeedCap))
    have h2 : Vec3.size2D (clampedToMaxSize2D (clampedToMaxSize2D A ms) ctx.airSpeedCap) ≤
        ctx.airSpeedCap := by
      rw [hcap_sz]
      exact min_le_right _ _
    linarith

/-- Airborne, not flying and not on a ladder, CalcVelocity reduces to the
axis-clamped walk-move phase applied to the axis-clamped velocity. -/
theorem calcVelocity_air_eq (ctx : CalcVelCtx) (V A : Vec3)
    (dt friction brakingDeceleration stepHeight0 floorZ0 : ℝ)
    (hground : ctx.bMovingOnGround = false) (hfly : ctx.bCheatFlying = false)
    (hlad : ctx.bOnLadder = false) (hdt : ¬ dt < MIN_TICK_TIME) :
    (calcVelocity ctx V A dt friction brakingDeceleration false stepHeight0 floorZ0).1 =
      clampAxis2D (walkMovePhase ctx (clampAxis2D V ctx.axisSpeedLimit) A dt ctx.maxSpeed false)
        ctx.axisSpeedLimit := by
  have hb : calcVelocityBrakedVelocity ctx V A dt (max 0 friction) brakingDeceleration
      ctx.maxSpeed = V := by
    simp [calcVelocityBrakedVelocity, hground]
  simp only [calcVelocity]
  rw [if_neg hdt]
  simp only [hground, Bool.false_and, Bool.false_eq_true, if_false, hfly, hlad]
  rw [hb]

/-- Claim C2: while airborne (not a ground move), a nonzero input
acceleration perpendicular to the current horizontal velocity strictly
increases the squared 2D speed of the velocity computed by CalcVelocity,
with no braking friction applied; the speed added is bounded by the air
speed cap, so repeated perpendicular-input ticks grow the speed regardless
of any ground max-speed cap (within the axis speed limit, which the
hypotheses keep slack). -/
theorem calcVelocity_airstrafe_gain (ctx : CalcVelCtx) (V A : Vec3)
    (dt friction brakingDeceleration stepHeight0 floorZ0 : ℝ)
    (hground : ctx.bMovingOnGround = false)
    (hfly : ctx.bCheatFlying = false)
    (hlad : ctx.bOnLadder = false)
    (hAz : A.z = 0)
    (hAnz : ¬ isNearlyZero A KINDA_SMALL_NUMBER)
    (hperp : V.x * A.x + V.y * A.y = 0)
    (hfric : 0 < ctx.surfaceFriction)
    (hmult : 0 < ctx.airAccelerationMultiplier)
    (hdt : MIN_TICK_TIME ≤ dt)
    (hms : KINDA_SMALL_NUMBER ≤ ctx.maxSpeed)
    (hcap : KINDA_SMALL_NUMBER ≤ ctx.airSpeedCap)
    (hx : |V.x| + ctx.airSpeedCap ≤ ctx.axisSpeedLimit)
    (hy : |V.y| + ctx.airSpeedCap ≤ ctx.axisSpeedLimit) :
    Vec3.size2DSq V < Vec3.size2DSq
      (calcVelocity ctx V A dt friction brakingDeceleration false stepHeight0 floorZ0).1 ∧
    Vec3.size2D
      (calcVelocity ctx V A dt friction brakingDeceleration false stepHeight0 floorZ0).1 ≤
      Vec3.size2D V + ctx.airSpeedCap := by
  have hcap0 : (0 : ℝ) < ctx.airSpeedCap :=
    lt_of_lt_of_le (by norm_num [KINDA_SMALL_NUMBER]) hcap
  have hdt0 : (0 : ℝ) < dt := lt_of_lt_of_le (by norm_num [MIN_TICK_TIME]) hdt
  obtain ⟨a, hwalk, haperp, hapos, hacap⟩ := walkMovePhase_air_perp ctx V A dt ctx.maxSpeed
    hAz hAnz hperp hfric hmult hdt0 hms hcap
  have hVx : |V.x| ≤ ctx.axisSpeedLimit := by linarith
  have hVy : |V.y| ≤ ctx.axisSpeedLimit := by linarith
  have hclampV : clampAxis2D V ctx.axisSpeedLimit = V := clampAxis2D_eq_self V _ hVx hVy
  have haxbound : |(V + a).x| ≤ ctx.axisSpeedLimit := by
    have h1 : |(V + a).x| ≤ |V.x| + |a.x| := by
      simp only [Vec3.add_x]; exact abs_add _ _
    have h2 : |a.x| ≤ Vec3.size2D a := Vec3.abs_x_le_size2D a
    linarith
  have haybound : |(V + a).y| ≤ ctx.axisSpeedLimit := by
    have h1 : |(V + a).y| ≤ |V.y| + |a.y| := by
      simp only [Vec3.add_y]; exact abs_add _ _
    have h2 : |a.y| ≤ Vec3.size2D a := Vec3.abs_y_le_size2D a
    linarith
  have hclampVa : clampAxis2D (V + a) ctx.axisSpeedLimit = V + a :=
    clampAxis2D_eq_self _ _ haxbound haybound
  have hres : (calcVelocity ctx V A dt friction brakingDeceleration false
      stepHeight0 floorZ0).1 = V + a := by
    rw [calcVelocity_air_eq ctx V A dt friction brakingDeceleration stepHeight0 floorZ0
      hground hfly hlad (not_lt.mpr hdt), hclampV, hwalk, hclampVa]
  rw [hres]
  constructor
  · rw [size2DSq_add_perp V a haperp]
    have h2 : 0 < Vec3.size2DSq a := by
      rw [← Vec3.size2D_sq a]
      positivity
    linarith
  · have h1 : Vec3.size2D (V + a) = Real.sqrt (Vec3.size2D V ^ 2 + Vec3.size2D a ^ 2) := by
      simp only [Vec3.size2D]
      rw [size2DSq_add_perp V a haperp]
      rw [Real.sq_sqrt (Vec3.size2DSq_nonneg V), Real.sq_sqrt (Vec3.size2DSq_nonneg a)]
    rw [h1]
    have h2 := sqrt_sq_add_sq_le (Vec3.size2D V) (Vec3.size2D a)
      (Vec3.size2D_nonneg V) (Vec3.size2D_nonneg a)
    linarith [h2]

/-- Default-configuration CalcVelocity context of the C2 witness. -/
def airStrafeCtx : CalcVelCtx :=
  ⟨1, 10, 10, 57.15, 6667.5, 361.9, false, 4, ⟨1, 0.015⟩, false, false, false, false,
    true, 120.6333, 1036.32, 1524, 34.29, 10, 0.7, ⟨1, 0, 0⟩, ⟨1, 0, 0⟩, false, 857.25⟩

/-- Witness for C2 at concrete airborne inputs: velocity (300,0,0), input
acceleration (0,857.25,0) with the default configuration numbers. -/
theorem calcVelocity_airstrafe_gain_witness :
    Vec3.size2DSq ⟨300, 0, 0⟩ < Vec3.size2DSq
      (calcVelocity airStrafeCtx
        ⟨300, 0, 0⟩ ⟨0, 857.25, 0⟩ 0.015 0 0 false 34.29 0.7).1 := by
  refine (calcVelocity_airstrafe_gain airStrafeCtx ⟨300, 0, 0⟩ ⟨0, 857.25, 0⟩ 0.015 0 0
    34.29 0.7 rfl rfl rfl rfl ?_ ?_ ?_ ?_ ?_ ?_ ?_ ?_ ?_).1
  · intro h
    have h2 : |(857.25 : ℝ)| ≤ KINDA_SMALL_NUMBER := h.2.1
    rw [abs_of_nonneg (by norm_num : (0:ℝ) ≤ 857.25)] at h2
    norm_num [KINDA_SMALL_NUMBER] at h2
  · show (300 : ℝ) * 0 + 0 * 857.25 = 0
    norm_num
  · exact one_pos
  · show (0 : ℝ) < 10
    norm_num
  · show (1e-6 : ℝ) ≤ 0.015
    norm_num
  · show (1e-4 : ℝ) ≤ 361.9
    norm_num
  · show (1e-4 : ℝ) ≤ 57.15
    norm_num
  · show |(300 : ℝ)| + 57.15 ≤ 6667.5
    rw [abs_of_nonneg (by norm_num : (0:ℝ) ≤ 300)]
    norm_num
  · show |(0 : ℝ)| + 57.15 ≤ 6667.5
    rw [abs_of_nonneg (le_refl (0:ℝ))]
    norm_num

/-- The jump-apex sub-step logic of UPBPlayerMovement::PhysFalling: given
the pre-gravity velocity and the post-gravity velocity of the sub-step,
the current sub-step length, the remaining simulation time and the apex
attempt counter, returns the updated (velocity, timeTick, remainingTime,
counter). -/
def apexSubStep (oldVelocity postGravityVelocity : Vec3) (timeTick remaining : ℝ)
    (numApexAttempts maxApexAttempts : ℕ) : Vec3 × ℝ × ℝ × ℕ :=
  if 0 < oldVelocity.z ∧ postGravityVelocity.z ≤ 0 ∧ numApexAttempts < maxApexAttempts then
    let derivedAccel := (1 / timeTick) • (postGravityVelocity - oldVelocity)
    if ¬ |derivedAccel.z| ≤ SMALL_NUMBER then
      let timeToApex := -oldVelocity.z / derivedAccel.z
      if 0.0001 ≤ timeToApex ∧ timeToApex < timeTick then
        let apexVelocity := oldVelocity + timeToApex • derivedAccel
        (⟨apexVelocity.x, apexVelocity.y, 0⟩, timeToApex,
          remaining + (timeTick - timeToApex), numApexAttempts + 1)
      else (postGravityVelocity, timeTick, remaining, numApexAttempts)
    else (postGravityVelocity, timeTick, remaining, numApexAttempts)
  else (postGravityVelocity, timeTick, remaining, numApexAttempts)

/-- The time to apex computed by the apex sub-step: minus the pre-gravity
vertical velocity divided by the derived vertical acceleration
(NewFallVelocity minus the old velocity over the sub-step length). -/
def apexTime (oldVelocity postGravityVelocity : Vec3) (timeTick : ℝ) : ℝ :=
  -oldVelocity.z / (1 / timeTick * (postGravityVelocity.z - oldVelocity.z))

/-- Claim C3: when the pre-gravity vertical velocity is positive, the
post-gravity vertical velocity is non-positive and the apex counter is
below its bound, the computed time-to-apex is minus the pre-gravity
vertical velocity divided by the derived vertical acceleration; if it lies
in [0.0001, timeTick) the sub-step is split at the apex: the vertical
velocity is set to exactly zero, the sub-step is shortened to the time to
apex, the unused time is refunded to the remaining simulation time and the
counter increments while staying within its bound.  A counter at or above
the bound never splits. -/
theorem apexSubStep_splits (oldVelocity postGravityVelocity : Vec3)
    (timeTick remaining : ℝ) (num maxN : ℕ)
    (hz : 0 < oldVelocity.z) (hpost : postGravityVelocity.z ≤ 0) (hnum : num < maxN)
    (haccel : ¬ |1 / timeTick * (postGravityVelocity.z - oldVelocity.z)| ≤ SMALL_NUMBER)
    (ht1 : 0.0001 ≤ apexTime oldVelocity postGravityVelocity timeTick)
    (ht2 : apexTime oldVelocity postGravityVelocity timeTick < timeTick) :
    apexSubStep oldVelocity postGravityVelocity timeTick remaining num maxN =
      (⟨oldVelocity.x + apexTime oldVelocity postGravityVelocity timeTick *
          (1 / timeTick * (postGravityVelocity.x - oldVelocity.x)),
        oldVelocity.y + apexTime oldVelocity postGravityVelocity timeTick *
          (1 / timeTick * (postGravityVelocity.y - oldVelocity.y)),
        0⟩,
       apexTime oldVelocity postGravityVelocity timeTick,
       remaining + (timeTick - apexTime oldVelocity postGravityVelocity timeTick),
       num + 1) ∧
    num + 1 ≤ maxN ∧
    (∀ (o p : Vec3) (tt r : ℝ) (n m : ℕ), m ≤ n →
      apexSubStep o p tt r n m = (p, tt, r, n)) := by
  refine ⟨?_, by omega, ?_⟩
  · simp only [apexTime] at ht1 ht2 ⊢
    simp only [apexSubStep, Vec3.smul_z, Vec3.sub_z, Vec3.smul_x, Vec3.sub_x,
      Vec3.smul_y, Vec3.sub_y, Vec3.add_x, Vec3.add_y]
    rw [if_pos ⟨hz, hpost, hnum⟩, if_pos haccel, if_pos ⟨ht1, ht2⟩]
  · intro o p tt r n m hm
    simp only [apexSubStep]
    rw [if_neg]
    rintro ⟨_, _, hlt⟩
    omega

/-- Witness for C3 at the literal scenario of the specification: initial
vertical velocity 304.8, gravity -1143 over a 0.5s sub-step; the apex split
returns a velocity with vertical component exactly zero and a sub-step of
304.8 / 1143 seconds. -/
theorem apexSubStep_splits_witness :
    (apexSubStep ⟨0, 0, 304.8⟩ ⟨0, 0, -266.7⟩ 0.5 0 0 2).1.z = 0 ∧
    (apexSubStep ⟨0, 0, 304.8⟩ ⟨0, 0, -266.7⟩ 0.5 0 0 2).2.1 = 304.8 / 1143 := by
  have h := (apexSubStep_splits ⟨0, 0, 304.8⟩ ⟨0, 0, -266.7⟩ 0.5 0 0 2
    (by norm_num) (by norm_num) (by norm_num)
    (by show ¬ |1 / (0.5:ℝ) * (-266.7 - 304.8)| ≤ SMALL_NUMBER
        rw [abs_of_nonpos (by norm_num)]
        norm_num [SMALL_NUMBER])
    (by show (0.0001 : ℝ) ≤ -304.8 / (1 / 0.5 * (-266.7 - 304.8))
        norm_num)
    (by show -304.8 / (1 / 0.5 * (-266.7 - 304.8)) < (0.5 : ℝ)
        norm_num)).1
  rw [h]
  refine ⟨rfl, ?_⟩
  show -304.8 / (1 / 0.5 * (-266.7 - 304.8)) = (304.8 : ℝ) / 1143
  norm_num

/-- UPBPlayerMovement::HandleSlopeBoosting.  On a ladder or noclipping the
engine base behaviour runs; it is external and modelled by the superResult
parameter.  ConstrainNormalToPlane is external and modelled by the
constrainNormal parameter (unused when bConstrainToPlane is false). -/
def handleSlopeBoosting (bOnLadder bCheatFlying bConstrainToPlane : Bool)
    (surfaceFriction bounceMultiplier : ℝ) (constrainNormal : Vec3 → Vec3)
    (superResult slideResult delta : Vec3) (time : ℝ) (normal impactNormal : Vec3) : Vec3 :=
  if bOnLadder || bCheatFlying then superResult
  else
    let wallAngle := |impactNormal.z|
    let n0 :=
      if wallAngle ≤ VerticalSlopeNormalZ ∨ wallAngle = 1.0 then normal else impactNormal
    let n := if bConstrainToPlane then constrainNormal n0 else n0
    let bounceCoefficient := 1 + bounceMultiplier * (1 - surfaceFriction)
    time • (delta - bounceCoefficient • projectOnToNormal delta n)

/-- HandleSlopeBoosting as worded by claim C4: the substitution of the
alternate normal is claimed to happen when the absolute vertical component
is at most 0.001 or the vertical component itself is exactly 1.0. -/
def handleSlopeBoostingClaim (surfaceFriction bounceMultiplier : ℝ) (delta : Vec3)
    (time : ℝ) (normal impactNormal : Vec3) : Vec3 :=
  let n := if |impactNormal.z| ≤ 0.001 ∨ impactNormal.z = 1.0 then normal else impactNormal
  time • (delta - (1 + bounceMultiplier * (1 - surfaceFriction)) • projectOnToNormal delta n)

/-- Counterexample to C4 as stated: at an impact normal with vertical
component exactly -1 the code substitutes the alternate normal (the
condition tests the absolute vertical component), while the claim keeps the
impact normal, yielding a different deflection. -/
theorem handleSlopeBoosting_counterexample :
    handleSlopeBoosting false false false 0 1 id 0 0 ⟨0, 0, 1⟩ 1 ⟨1, 0, 0⟩ ⟨0, 0, -1⟩ ≠
      handleSlopeBoostingClaim 0 1 ⟨0, 0, 1⟩ 1 ⟨1, 0, 0⟩ ⟨0, 0, -1⟩ := by
  have h1 : handleSlopeBoosting false false false 0 1 id 0 0 ⟨0, 0, 1⟩ 1 ⟨1, 0, 0⟩
      ⟨0, 0, -1⟩ = ⟨0, 0, 1⟩ := by
    simp only [handleSlopeBoosting, Bool.or_self, Bool.false_eq_true, if_false]
    rw [if_pos]
    · ext
      · show (1:ℝ) * (0 - (1 + 1 * (1 - 0)) * ((0 * 1 + 0 * 0 + 1 * 0) * 1)) = 0
        norm_num
      · show (1:ℝ) * (0 - (1 + 1 * (1 - 0)) * ((0 * 1 + 0 * 0 + 1 * 0) * 0)) = 0
        norm_num
      · show (1:ℝ) * (1 - (1 + 1 * (1 - 0)) * ((0 * 1 + 0 * 0 + 1 * 0) * 0)) = 1
        norm_num
    · right
      rw [abs_of_nonpos (by norm_num : (-1 : ℝ) ≤ 0)]
      norm_num
  have h2 : handleSlopeBoostingClaim 0 1 ⟨0, 0, 1⟩ 1 ⟨1, 0, 0⟩ ⟨0, 0, -1⟩ =
      ⟨0, 0, -1⟩ := by
    simp only [handleSlopeBoostingClaim]
    rw [if_neg]
    · ext
      · show (1:ℝ) * (0 - (1 + 1 * (1 - 0)) * ((0 * 0 + 0 * 0 + 1 * -1) * 0)) = 0
        norm_num
      · show (1:ℝ) * (0 - (1 + 1 * (1 - 0)) * ((0 * 0 + 0 * 0 + 1 * -1) * 0)) = 0
        norm_num
      · show (1:ℝ) * (1 - (1 + 1 * (1 - 0)) * ((0 * 0 + 0 * 0 + 1 * -1) * -1)) = -1
        norm_num
    · rintro (h | h)
      · rw [abs_of_nonpos (by norm_num : (-1 : ℝ) ≤ 0)] at h
        norm_num at h
      · norm_num at h
  rw [h1, h2]
  intro h
  have h3 := congrArg Vec3.z h
  norm_num at h3

/-- Claim C4 (amended): for every hit, when not on a ladder, not
noclipping and without a plane constraint, HandleSlopeBoosting returns
(Delta - BounceCoefficient * proj(Delta, N)) * Time with
BounceCoefficient = 1 + BounceMultiplier * (1 - SurfaceFriction), where N
is the impact normal except that the more stable alternate normal is
substituted when the absolute vertical component of the impact normal is
at most 0.001 or is exactly 1.0 (in particular also at vertical component
exactly -1.0); when SurfaceFriction = 1 the coefficient is exactly 1 and
the deflection is the pure slide. -/
theorem handleSlopeBoosting_spec (surfaceFriction bounceMultiplier time : ℝ)
    (constrainNormal : Vec3 → Vec3) (superResult slideResult delta normal impactNormal : Vec3) :
    handleSlopeBoosting false false false surfaceFriction bounceMultiplier constrainNormal
        superResult slideResult delta time normal impactNormal =
      time • (delta - (1 + bounceMultiplier * (1 - surfaceFriction)) •
        projectOnToNormal delta
          (if |impactNormal.z| ≤ 0.001 ∨ |impactNormal.z| = 1.0 then normal
           else impactNormal)) ∧
    (surfaceFriction = 1 →
      handleSlopeBoosting false false false surfaceFriction bounceMultiplier constrainNormal
          superResult slideResult delta time normal impactNormal =
        time • (delta - projectOnToNormal delta
          (if |impactNormal.z| ≤ 0.001 ∨ |impactNormal.z| = 1.0 then normal
           else impactNormal))) := by
  have hmain : handleSlopeBoosting false false false surfaceFriction bounceMultiplier
      constrainNormal superResult slideResult delta time normal impactNormal =
      time • (delta - (1 + bounceMultiplier * (1 - surfaceFriction)) •
        projectOnToNormal delta
          (if |impactNormal.z| ≤ 0.001 ∨ |impactNormal.z| = 1.0 then normal
           else impactNormal)) := by
    simp only [handleSlopeBoosting, VerticalSlopeNormalZ, Bool.or_self, Bool.false_eq_true,
      if_false]
  refine ⟨hmain, ?_⟩
  intro hfric
  rw [hmain, hfric]
  rw [show 1 + bounceMultiplier * (1 - 1) = (1 : ℝ) by ring]
  rw [Vec3.one_smul]

/-- Witness for C4 at friction 1 on an icy-bounce configuration. -/
theorem handleSlopeBoosting_spec_witness :
    handleSlopeBoosting false false false 1 2 id 0 0 ⟨3, 0, 1⟩ 1 ⟨1, 0, 0⟩ ⟨0, 1, 0⟩ =
      (1 : ℝ) • ((⟨3, 0, 1⟩ : Vec3) - projectOnToNormal ⟨3, 0, 1⟩
        (if |((⟨0, 1, 0⟩ : Vec3)).z| ≤ 0.001 ∨ |((⟨0, 1, 0⟩ : Vec3)).z| = 1.0 then
          (⟨1, 0, 0⟩ : Vec3) else ⟨0, 1, 0⟩)) :=
  (handleSlopeBoosting_spec 1 2 1 id 0 0 ⟨3, 0, 1⟩ ⟨1, 0, 0⟩ ⟨0, 1, 0⟩).2 rfl

/-- State read by APBPlayerCharacter::OnJumped_Implementation. -/
structure JumpBoostCtx where
  bOnLadder : Bool
  timeSeconds : ℝ
  lastJumpBoostTime : ℝ
  maxJumpTime : ℝ
  jumpBoost : ℤ
  bIsSprinting : Bool
  bIsCrouched : Bool
  maxSpeed : ℝ
  maxAcceleration : ℝ
  bunnyhop : ℤ

/-- The jump forward-speed boost of APBPlayerCharacter::OnJumped:
computes the boost along the facing direction (projected onto the current
movement direction unless jump boost mode 1), clamps it against the
max-boosted-speed envelope, optionally keeps the larger unclamped variant
when bunnyhop is enabled, and assigns the boosted velocity only when its
squared 2D speed strictly exceeds the current one. -/
def onJumpedVelocity (ctx : JumpBoostCtx) (velocity acceleration facing : Vec3) : Vec3 :=
  if ctx.bOnLadder then velocity
  else if ctx.timeSeconds ≥ ctx.lastJumpBoostTime + ctx.maxJumpTime ∧ ctx.jumpBoost ≠ 0 then
    let input :=
      if ctx.jumpBoost ≠ 1 then
        (max (Vec3.dot (safeNormal2D acceleration) (safeNormal2D velocity)) 0) • acceleration
      else acceleration
    let forwardSpeed := Vec3.dot input facing
    let speedBoostPerc : ℝ := if ctx.bIsSprinting || ctx.bIsCrouched then 0.1 else 0.5
    let speedAddition0 := |forwardSpeed * speedBoostPerc|
    let maxBoostedSpeed := (ctx.maxSpeed + ctx.maxSpeed) * speedBoostPerc
    let newSpeed := speedAddition0 + Vec3.size2D velocity
    let speedAddition1 :=
      if newSpeed > maxBoostedSpeed then speedAddition0 - (newSpeed - maxBoostedSpeed)
      else speedAddition0
    let negateBoost := forwardSpeed < -(ctx.maxAcceleration * Real.sin 0.6981)
    let speedAddition := if negateBoost then -speedAddition1 else speedAddition1
    let speedAdditionNoClamp := if negateBoost then -speedAddition0 else speedAddition0
    let jumpBoostedVel := velocity + speedAddition • facing
    let unclampedVel := velocity + speedAdditionNoClamp • facing
    let useUnclamped :=
      ctx.bunnyhop ≠ 0 ∧ Vec3.size2DSq unclampedVel > Vec3.size2DSq jumpBoostedVel
    let finalVel := if useUnclamped then unclampedVel else jumpBoostedVel
    if Vec3.size2DSq velocity < Vec3.size2DSq finalVel then finalVel else velocity
  else velocity

/-- Claim C10: the jump forward-speed boost never decreases horizontal
speed: the boosted velocity is assigned only when its squared 2D speed
strictly exceeds the current one, so the velocity after the boost logic is
either unchanged or strictly faster in 2D. -/
theorem onJumpedVelocity_no_speed_loss (ctx : JumpBoostCtx)
    (velocity acceleration facing : Vec3) :
    onJumpedVelocity ctx velocity acceleration facing = velocity ∨
    Vec3.size2DSq velocity <
      Vec3.size2DSq (onJumpedVelocity ctx velocity acceleration facing) := by
  have key : ∀ v F : Vec3,
      (if Vec3.size2DSq v < Vec3.size2DSq F then F else v) = v ∨
      Vec3.size2DSq v <
        Vec3.size2DSq (if Vec3.size2DSq v < Vec3.size2DSq F then F else v) := by
    intro v F
    by_cases h : Vec3.size2DSq v < Vec3.size2DSq F
    · right
      rw [if_pos h]
      exact h
    · left
      rw [if_neg h]
  simp only [onJumpedVelocity]
  by_cases h1 : ctx.bOnLadder
  · rw [if_pos h1]
    left
    rfl
  · rw [if_neg h1]
    by_cases h2 : ctx.timeSeconds ≥ ctx.lastJumpBoostTime + ctx.maxJumpTime ∧ ctx.jumpBoost ≠ 0
    · rw [if_pos h2]
      exact key velocity _
    · rw [if_neg h2]
      left
      rfl

/-- The hit-result shape consumed by IsValidLandingSpot. -/
structure HitRes where
  bBlockingHit : Bool
  bStartPenetrating : Bool
  normal : Vec3
  impactNormal : Vec3
  impactPoint : Vec3
  location : Vec3
  hitTime : ℝ

/-- State read by UPBPlayerMovement::IsValidLandingSpot beyond the hit:
capsule size, velocity, walkable floor Z, the gravity step of the slope
deflection check and the slide configuration. -/
structure LandingCtx where
  bUseFlatBaseForFloorChecks : Bool
  walkableFloorZ : ℝ
  capsuleRadius : ℝ
  capsuleHalfHeight : ℝ
  velocity : Vec3
  gravityZ : ℝ
  deltaSeconds : ℝ
  surfaceFriction : ℝ
  bounceMultiplier : ℝ
  bOnLadder : Bool
  bCheatFlying : Bool
  bConstrainToPlane : Bool

/-- The engine ComputeSlideVector for a falling pawn: the base
plane-projection slide scaled by the time fraction, routed through the
overridden HandleSlopeBoosting. -/
def computeSlideVectorFalling (ctx : LandingCtx) (constrainNormal : Vec3 → Vec3)
    (delta : Vec3) (time : ℝ) (normal : Vec3) (hit : HitRes) : Vec3 :=
  let slideResult := time • (delta - projectOnToNormal delta normal)
  handleSlopeBoosting ctx.bOnLadder ctx.bCheatFlying ctx.bConstrainToPlane
    ctx.surfaceFriction ctx.bounceMultiplier constrainNormal slideResult slideResult delta
    time normal hit.impactNormal

/-- The final floor-confirmation and slope checks of IsValidLandingSpot:
the floor query must confirm walkability, and when moving up a slope the
deflected velocity after one gravity half-step must not still exceed the
jump velocity. -/
def landingSlopeCheck (ctx : LandingCtx) (constrainNormal : Vec3 → Vec3)
    (floorWalkable : Bool) (hit : HitRes) : Bool :=
  if floorWalkable = false then false
  else if hit.normal.z < 1 ∧ Vec3.dot ctx.velocity hit.normal < 0 then
    if (computeSlideVectorFalling ctx constrainNormal
        (ctx.velocity + ⟨0, 0, 0.5 * ctx.gravityZ * ctx.deltaSeconds⟩) 1 hit.normal hit).z >
        JumpVelocity then false
    else true
  else true

/-- UPBPlayerMovement::IsValidLandingSpot.  The external collaborators are
oracle parameters: isWalkableHit models IsWalkable(Hit), withinEdgeTolerance
models IsWithinEdgeTolerance, floorWalkable models the FindFloor re-query
confirming a walkable floor, constrainNormal models
ConstrainNormalToPlane. -/
def isValidLandingSpot (ctx : LandingCtx) (constrainNormal : Vec3 → Vec3)
    (isWalkableHit withinEdgeTolerance floorWalkable : Bool) (hit : HitRes) : Bool :=
  if hit.bBlockingHit = false then false
  else if hit.bStartPenetrating = false then
    if isWalkableHit = false then false
    else if (if ctx.bUseFlatBaseForFloorChecks then
        (hit.impactNormal.z < ctx.walkableFloorZ ∨ hit.impactNormal.z = 1.0) ∧
          hit.impactPoint.z > hit.location.z - ctx.capsuleHalfHeight + MAX_FLOOR_DIST
      else
        hit.impactPoint.z ≥ hit.location.z - ctx.capsuleHalfHeight + ctx.capsuleRadius) then
      false
    else if withinEdgeTolerance = false then false
    else landingSlopeCheck ctx constrainNormal floorWalkable hit
  else
    if hit.normal.z < KINDA_SMALL_NUMBER then false
    else landingSlopeCheck ctx constrainNormal floorWalkable hit

/-- Landing hit used by the C9 counterexample: a blocking, walkable slope
hit with normal (0.6, 0, 0.8). -/
def landingHit : HitRes :=
  ⟨true, false, ⟨0.6, 0, 0.8⟩, ⟨0.6, 0, 0.8⟩, ⟨0, 0, 0⟩, ⟨0, 0, 0⟩, 1⟩

/-- Movement state A for the C9 counterexample: sliding fast up the slope. -/
def landingCtxA : LandingCtx :=
  ⟨true, 0.7, 42, 68.58, ⟨-1000, 0, 0⟩, -1143, 0.015, 1, 0, false, false, false⟩

/-- Movement state B for the C9 counterexample: identical except at rest. -/
def landingCtxB : LandingCtx :=
  ⟨true, 0.7, 42, 68.58, ⟨0, 0, 0⟩, -1143, 0.015, 1, 0, false, false, false⟩

/-- With a blocking, non-penetrating, walkable, in-tolerance hit whose
flat-base / radius rejection condition fails, IsValidLandingSpot reduces to
the final floor-confirmation and slope checks. -/
theorem isValidLandingSpot_reduces (ctx : LandingCtx) (cn : Vec3 → Vec3)
    (fl : Bool) (hit : HitRes)
    (hbh : hit.bBlockingHit = true) (hsp : hit.bStartPenetrating = false)
    (hcond : ¬ (if ctx.bUseFlatBaseForFloorChecks then
        (hit.impactNormal.z < ctx.walkableFloorZ ∨ hit.impactNormal.z = 1.0) ∧
          hit.impactPoint.z > hit.location.z - ctx.capsuleHalfHeight + MAX_FLOOR_DIST
      else
        hit.impactPoint.z ≥ hit.location.z - ctx.capsuleHalfHeight + ctx.capsuleRadius)) :
    isValidLandingSpot ctx cn true true fl hit = landingSlopeCheck ctx cn fl hit := by
  simp only [isValidLandingSpot]
  rw [hbh, hsp]
  rw [if_neg (by simp : ¬ (true = false)), if_pos (rfl : false = false),
    if_neg (by simp : ¬ (true = false)), if_neg hcond,
    if_neg (by simp : ¬ (true = false))]

/-- A walkable confirmed floor with no upward slope deflection to check
passes the final checks. -/
theorem landingSlopeCheck_true_of (ctx : LandingCtx) (cn : Vec3 → Vec3) (hit : HitRes)
    (hns : ¬ (hit.normal.z < 1 ∧ Vec3.dot ctx.velocity hit.normal < 0)) :
    landingSlopeCheck ctx cn true hit = true := by
  simp only [landingSlopeCheck]
  rw [if_neg (by simp : ¬ (true = false)), if_neg hns]

/-- A slope hit whose deflected velocity after the gravity half-step still
exceeds the jump velocity fails the final checks. -/
theorem landingSlopeCheck_false_of (ctx : LandingCtx) (cn : Vec3 → Vec3) (hit : HitRes)
    (hs : hit.normal.z < 1 ∧ Vec3.dot ctx.velocity hit.normal < 0)
    (hz : (computeSlideVectorFalling ctx cn
        (ctx.velocity + ⟨0, 0, 0.5 * ctx.gravityZ * ctx.deltaSeconds⟩) 1 hit.normal hit).z >
      JumpVelocity) :
    landingSlopeCheck ctx cn true hit = false := by
  simp only [landingSlopeCheck]
  rw [if_neg (by simp : ¬ (true = false)), if_pos hs, if_pos hz]

/-- Off ladder and noclip with no plane constraint, the falling slide vector
of a non-vertical, non-flat impact deflects the delta against the impact
normal with the bounce coefficient. -/
theorem computeSlideVectorFalling_eq (ctx : LandingCtx) (cn : Vec3 → Vec3)
    (delta : Vec3) (t : ℝ) (normal : Vec3) (hit : HitRes)
    (hlad : ctx.bOnLadder = false) (hfly : ctx.bCheatFlying = false)
    (hcp : ctx.bConstrainToPlane = false)
    (hn : ¬ (|hit.impactNormal.z| ≤ VerticalSlopeNormalZ ∨ |hit.impactNormal.z| = 1.0)) :
    computeSlideVectorFalling ctx cn delta t normal hit =
      t • (delta - (1 + ctx.bounceMultiplier * (1 - ctx.surfaceFriction)) •
        projectOnToNormal delta hit.impactNormal) := by
  simp only [computeSlideVectorFalling, handleSlopeBoosting, hlad, hfly, hcp]
  simp only [Bool.or_self, Bool.false_eq_true, if_false]
  rw [if_neg hn]

/-- Counterexample to C9 as stated: IsValidLandingSpot is not a pure
function of the hit result and capsule size alone.  Two states with the
identical hit and identical capsule size but different velocities yield
different results, because the slope deflection check reads the velocity. -/
theorem isValidLandingSpot_counterexample :
    landingCtxA.capsuleRadius = landingCtxB.capsuleRadius ∧
    landingCtxA.capsuleHalfHeight = landingCtxB.capsuleHalfHeight ∧
    isValidLandingSpot landingCtxA id true true true landingHit = false ∧
    isValidLandingSpot landingCtxB id true true true landingHit = true := by
  have hcondA : ¬ (if landingCtxA.bUseFlatBaseForFloorChecks then
      (landingHit.impactNormal.z < landingCtxA.walkableFloorZ ∨
        landingHit.impactNormal.z = 1.0) ∧
        landingHit.impactPoint.z >
          landingHit.location.z - landingCtxA.capsuleHalfHeight + MAX_FLOOR_DIST
    else
      landingHit.impactPoint.z ≥
        landingHit.location.z - landingCtxA.capsuleHalfHeight + landingCtxA.capsuleRadius) := by
    simp only [landingCtxA, landingHit]
    rw [if_pos trivial]
    norm_num
  have hcondB : ¬ (if landingCtxB.bUseFlatBaseForFloorChecks then
      (landingHit.impactNormal.z < landingCtxB.walkableFloorZ ∨
        landingHit.impactNormal.z = 1.0) ∧
        landingHit.impactPoint.z >
          landingHit.location.z - landingCtxB.capsuleHalfHeight + MAX_FLOOR_DIST
    else
      landingHit.impactPoint.z ≥
        landingHit.location.z - landingCtxB.capsuleHalfHeight + landingCtxB.capsuleRadius) := by
    simp only [landingCtxB, landingHit]
    rw [if_pos trivial]
    norm_num
  have hsA : landingHit.normal.z < 1 ∧
      Vec3.dot landingCtxA.velocity landingHit.normal < 0 := by
    constructor
    · simp only [landingHit]; norm_num
    · simp only [landingCtxA, landingHit, Vec3.dot]; norm_num
  have hnA : ¬ (|landingHit.impactNormal.z| ≤ VerticalSlopeNormalZ ∨
      |landingHit.impactNormal.z| = 1.0) := by
    rw [show landingHit.impactNormal.z = (0.8 : ℝ) from rfl,
      abs_of_nonneg (by norm_num : (0:ℝ) ≤ 0.8)]
    norm_num [VerticalSlopeNormalZ]
  have hzA : (computeSlideVectorFalling landingCtxA id
      (landingCtxA.velocity +
        ⟨0, 0, 0.5 * landingCtxA.gravityZ * landingCtxA.deltaSeconds⟩)
      1 landingHit.normal landingHit).z > JumpVelocity := by
    rw [computeSlideVectorFalling_eq landingCtxA id _ 1 landingHit.normal landingHit
      rfl rfl rfl hnA]
    show (1:ℝ) * ((0 + 0.5 * -1143 * 0.015) - (1 + 0 * (1 - 1)) *
      (((-1000 + 0) * 0.6 + (0 + 0) * 0 + (0 + 0.5 * -1143 * 0.015) * 0.8) * 0.8)) >
        JumpVelocity
    norm_num [JumpVelocity]
  have hnsB : ¬ (landingHit.normal.z < 1 ∧
      Vec3.dot landingCtxB.velocity landingHit.normal < 0) := by
    rintro ⟨-, h2⟩
    simp only [landingCtxB, landingHit, Vec3.dot] at h2
    norm_num at h2
  refine ⟨rfl, rfl, ?_, ?_⟩
  · rw [isValidLandingSpot_reduces landingCtxA id true landingHit rfl rfl hcondA]
    exact landingSlopeCheck_false_of landingCtxA id landingHit hsA hzA
  · rw [isValidLandingSpot_reduces landingCtxB id true landingHit rfl rfl hcondB]
    exact landingSlopeCheck_true_of landingCtxB id landingHit hnsB

/-- Claim C9 (amended): IsValidLandingSpot is a pure function of the hit
result, the capsule size AND the rest of the movement state it reads
(velocity, walkable floor Z, gravity step, slide configuration) together
with the collaborator query results: identical full inputs always yield
the identical boolean. -/
theorem isValidLandingSpot_deterministic (c1 c2 : LandingCtx) (f1 f2 : Vec3 → Vec3)
    (w1 e1 fl1 w2 e2 fl2 : Bool) (h1 h2 : HitRes)
    (hc : c1 = c2) (hf : f1 = f2) (hw : w1 = w2) (he : e1 = e2) (hfl : fl1 = fl2)
    (hh : h1 = h2) :
    isValidLandingSpot c1 f1 w1 e1 fl1 h1 = isValidLandingSpot c2 f2 w2 e2 fl2 h2 := by
  subst hc hf hw he hfl hh
  rfl

/-- Witness for C9 (amended) at the concrete counterexample inputs. -/
theorem isValidLandingSpot_deterministic_witness :
    isValidLandingSpot landingCtxA id true true true landingHit =
      isValidLandingSpot landingCtxA id true true true landingHit :=
  isValidLandingSpot_deterministic landingCtxA landingCtxA id id true true true true true
    true landingHit landingHit rfl rfl rfl rfl rfl rfl

/-- Configuration read by UPBPlayerMovement::DoUnCrouchResize. -/
structure UncrouchCtx where
  componentScale : ℝ
  uncrouchedHalfHeight : ℝ
  crouchedHalfHeight : ℝ
  capsuleRadius : ℝ
  groundUncrouchCheckFactor : ℝ
  bCrouchMaintainsBaseLocation : Bool
  bIsMovingOnGround : Bool
  floorBlockingHit : Bool
  floorDist : ℝ

/-- Mutable state touched by DoUnCrouchResize. -/
structure UncrouchState where
  unscaledHalfHeight : ℝ
  location : Vec3
  bIsCrouched : Bool
  bIsInCrouchTransition : Bool

/-- The capsule sweep inflation of the crouch code, KINDA_SMALL_NUMBER*10,
which also equals the local MinFloorDist of the maintains-base branch. -/
def sweepInflation : ℝ := KINDA_SMALL_NUMBER * 10

/-- The half height of the relaxed grounded partial-uncrouch probe: the
current scaled half height grown by the sweep inflation and by the
remaining growth to standing scaled by GroundUncrouchCheckFactor. -/
def groundUncrouchProbeHalfHeight (ctx : UncrouchCtx) (st : UncrouchState) : ℝ :=
  st.unscaledHalfHeight * ctx.componentScale + sweepInflation +
    ctx.componentScale * (ctx.uncrouchedHalfHeight - st.unscaledHalfHeight) *
      ctx.groundUncrouchCheckFactor

/-- The uncrouch interpolation alpha already reached by the current capsule
half height. -/
def uncrouchCurrentAlpha (ctx : UncrouchCtx) (st : UncrouchState) : ℝ :=
  1 - (ctx.uncrouchedHalfHeight - st.unscaledHalfHeight) /
    (ctx.uncrouchedHalfHeight - ctx.crouchedHalfHeight)

/-- The tentative target alpha of this tick (1 for an instant uncrouch). -/
def uncrouchTargetAlpha0 (ctx : UncrouchCtx) (st : UncrouchState)
    (targetTime deltaTime : ℝ) : ℝ :=
  if |targetTime| ≤ SMALL_NUMBER then 1
  else uncrouchCurrentAlpha ctx st + deltaTime / targetTime

/-- The unscaled half-height growth committed by this tick (clamped to
completion when the target alpha reaches 1). -/
def uncrouchHalfHeightAdjust (ctx : UncrouchCtx) (st : UncrouchState)
    (targetTime deltaTime : ℝ) : ℝ :=
  let a0 := uncrouchTargetAlpha0 ctx st targetTime deltaTime
  let diff :=
    if 1 ≤ a0 ∨ |a0 - 1| ≤ SMALL_NUMBER then 1 - uncrouchCurrentAlpha ctx st
    else if |targetTime| ≤ SMALL_NUMBER then 1 else deltaTime / targetTime
  (ctx.uncrouchedHalfHeight - ctx.crouchedHalfHeight) * diff

/-- The expand-in-place path of DoUnCrouchResize (maintains-base off): try
the standing capsule at the current location, then once more at the
adjusted location dropped toward the floor, and commit the resize only when
unencroached. -/
def doUnCrouchResizeExpandInPlace (ctx : UncrouchCtx) (overlapBlocked : Vec3 → ℝ → Bool)
    (st : UncrouchState) (targetTime deltaTime : ℝ) : UncrouchState :=
  let currentCrouchedHalfHeight := st.unscaledHalfHeight * ctx.componentScale
  let a0 := uncrouchTargetAlpha0 ctx st targetTime deltaTime
  let finish := 1 ≤ a0 ∨ |a0 - 1| ≤ SMALL_NUMBER
  let transitionAfter := if finish then false else st.bIsInCrouchTransition
  let halfHeightAdjust := uncrouchHalfHeightAdjust ctx st targetTime deltaTime
  let scaledHalfHeightAdjust := halfHeightAdjust * ctx.componentScale
  let standingHalf := currentCrouchedHalfHeight + sweepInflation + scaledHalfHeightAdjust
  let enc0 := overlapBlocked st.location standingHalf
  let newLocZ := st.location.z - 2 * ctx.capsuleRadius + standingHalf +
    sweepInflation + MIN_FLOOR_DIST / 2
  let tryAdjust := enc0 = true ∧ 0 < scaledHalfHeightAdjust
  let enc1 :=
    if tryAdjust then overlapBlocked ⟨st.location.x, st.location.y, newLocZ⟩ standingHalf
    else enc0
  let newLocation :=
    if tryAdjust ∧ enc1 = false then (⟨st.location.x, st.location.y, newLocZ⟩ : Vec3)
    else st.location
  if enc1 = true then { st with bIsInCrouchTransition := transitionAfter }
  else
    { unscaledHalfHeight := st.unscaledHalfHeight + halfHeightAdjust,
      location := newLocation, bIsCrouched := false,
      bIsInCrouchTransition := transitionAfter }

/-- The maintains-base path of DoUnCrouchResize: probe the standing capsule
grown upward from the base, optionally dropped by the measured floor
distance, and commit the resize only when unencroached. -/
def doUnCrouchResizeMaintainBase (ctx : UncrouchCtx) (overlapBlocked : Vec3 → ℝ → Bool)
    (st : UncrouchState) (targetTime deltaTime : ℝ) : UncrouchState :=
  let currentCrouchedHalfHeight := st.unscaledHalfHeight * ctx.componentScale
  let a0 := uncrouchTargetAlpha0 ctx st targetTime deltaTime
  let finish := 1 ≤ a0 ∨ |a0 - 1| ≤ SMALL_NUMBER
  let transitionAfter := if finish then false else st.bIsInCrouchTransition
  let halfHeightAdjust := uncrouchHalfHeightAdjust ctx st targetTime deltaTime
  let scaledHalfHeightAdjust := halfHeightAdjust * ctx.componentScale
  let standingHalf := currentCrouchedHalfHeight + sweepInflation + scaledHalfHeightAdjust
  let standingLoc0 := st.location + (⟨0, 0, standingHalf - currentCrouchedHalfHeight⟩ : Vec3)
  let tryDown := overlapBlocked standingLoc0 standingHalf = true ∧
    ctx.bIsMovingOnGround = true ∧
    ctx.floorBlockingHit = true ∧ sweepInflation < ctx.floorDist
  let standingLoc :=
    if tryDown then standingLoc0 + (⟨0, 0, -(ctx.floorDist - sweepInflation)⟩ : Vec3)
    else standingLoc0
  let enc :=
    if tryDown then overlapBlocked standingLoc standingHalf
    else overlapBlocked standingLoc0 standingHalf
  let newLocation := if enc = false then standingLoc else st.location
  if enc = true then { st with bIsInCrouchTransition := transitionAfter }
  else
    { unscaledHalfHeight := st.unscaledHalfHeight + halfHeightAdjust,
      location := newLocation, bIsCrouched := false,
      bIsInCrouchTransition := transitionAfter }

/-- UPBPlayerMovement::DoUnCrouchResize (server path, bClientSimulation
false).  World overlap queries are the oracle parameter overlapBlocked
(probe center, probe half height).  The commented-out downward sweep of the
source leaves a default hit (time 1, not penetrating), which the model
reflects in the adjusted-location computation of the expand-in-place
branch. -/
def doUnCrouchResize (ctx : UncrouchCtx) (overlapBlocked : Vec3 → ℝ → Bool)
    (st : UncrouchState) (targetTime deltaTime : ℝ) : UncrouchState :=
  if |st.unscaledHalfHeight - ctx.uncrouchedHalfHeight| ≤ SMALL_NUMBER then
    { st with bIsCrouched := false, bIsInCrouchTransition := false }
  else
    let currentCrouchedHalfHeight := st.unscaledHalfHeight * ctx.componentScale
    if ¬ |targetTime| ≤ SMALL_NUMBER ∧ ctx.bCrouchMaintainsBaseLocation = true ∧
        overlapBlocked
          (st.location +
            ⟨0, 0, groundUncrouchProbeHalfHeight ctx st - currentCrouchedHalfHeight⟩)
          (groundUncrouchProbeHalfHeight ctx st) = true then
      st
    else if ctx.bCrouchMaintainsBaseLocation = false then
      doUnCrouchResizeExpandInPlace ctx overlapBlocked st targetTime deltaTime
    else
      doUnCrouchResizeMaintainBase ctx overlapBlocked st targetTime deltaTime

/-- Claim C8: when the overlap probe at the prospective larger standing
capsule reports blocking geometry, DoUnCrouchResize returns without
resizing the capsule, without moving the agent and without clearing the
crouched flag (the relaxed grounded pre-probe returns the state fully
unchanged, the main standing probe leaves half height, location and
crouched flag unchanged); and the grounded partial-uncrouch probe relaxes
the checked growth by the tolerance factor GroundUncrouchCheckFactor. -/
theorem doUnCrouchResize_blocked (ctx : UncrouchCtx) (overlapBlocked : Vec3 → ℝ → Bool)
    (st : UncrouchState) (targetTime deltaTime : ℝ)
    (hbase : ctx.bCrouchMaintainsBaseLocation = true)
    (hneq : ¬ |st.unscaledHalfHeight - ctx.uncrouchedHalfHeight| ≤ SMALL_NUMBER)
    (hinst : ¬ |targetTime| ≤ SMALL_NUMBER) :
    (overlapBlocked
        (st.location + ⟨0, 0, groundUncrouchProbeHalfHeight ctx st -
          st.unscaledHalfHeight * ctx.componentScale⟩)
        (groundUncrouchProbeHalfHeight ctx st) = true →
      doUnCrouchResize ctx overlapBlocked st targetTime deltaTime = st) ∧
    ((∀ loc : Vec3, overlapBlocked loc
        (st.unscaledHalfHeight * ctx.componentScale + sweepInflation +
          uncrouchHalfHeightAdjust ctx st targetTime deltaTime * ctx.componentScale) = true) →
      (doUnCrouchResize ctx overlapBlocked st targetTime deltaTime).unscaledHalfHeight =
        st.unscaledHalfHeight ∧
      (doUnCrouchResize ctx overlapBlocked st targetTime deltaTime).location = st.location ∧
      (doUnCrouchResize ctx overlapBlocked st targetTime deltaTime).bIsCrouched =
        st.bIsCrouched) ∧
    groundUncrouchProbeHalfHeight ctx st -
        st.unscaledHalfHeight * ctx.componentScale - sweepInflation =
      ctx.groundUncrouchCheckFactor *
        (ctx.componentScale * (ctx.uncrouchedHalfHeight - st.unscaledHalfHeight)) := by
  refine ⟨?_, ?_, ?_⟩
  · intro hblocked
    simp only [doUnCrouchResize]
    rw [if_neg hneq, if_pos ⟨hinst, hbase, hblocked⟩]
  · intro hall
    by_cases hp : overlapBlocked
        (st.location + ⟨0, 0, groundUncrouchProbeHalfHeight ctx st -
          st.unscaledHalfHeight * ctx.componentScale⟩)
        (groundUncrouchProbeHalfHeight ctx st) = true
    · have hres : doUnCrouchResize ctx overlapBlocked st targetTime deltaTime = st := by
        simp only [doUnCrouchResize]
        rw [if_neg hneq, if_pos ⟨hinst, hbase, hp⟩]
      rw [hres]
      exact ⟨rfl, rfl, rfl⟩
    · have hEnc : ∀ (c : Prop) (inst : Decidable c) (l1 l2 : Vec3),
          (if c then overlapBlocked l1
              (st.unscaledHalfHeight * ctx.componentScale + sweepInflation +
                uncrouchHalfHeightAdjust ctx st targetTime deltaTime * ctx.componentScale)
           else overlapBlocked l2
              (st.unscaledHalfHeight * ctx.componentScale + sweepInflation +
                uncrouchHalfHeightAdjust ctx st targetTime deltaTime * ctx.componentScale)) =
            true := by
        intro c inst l1 l2
        by_cases hc : c
        · rw [if_pos hc]; exact hall _
        · rw [if_neg hc]; exact hall _
      have hres : doUnCrouchResize ctx overlapBlocked st targetTime deltaTime =
          doUnCrouchResizeMaintainBase ctx overlapBlocked st targetTime deltaTime := by
        simp only [doUnCrouchResize]
        rw [if_neg hneq, if_neg (fun h => hp h.2.2), hbase]
        rw [if_neg (by simp : ¬ (true = false))]
      have hres2 : doUnCrouchResizeMaintainBase ctx overlapBlocked st targetTime deltaTime =
          { st with bIsInCrouchTransition :=
            if 1 ≤ uncrouchTargetAlpha0 ctx st targetTime deltaTime ∨
                |uncrouchTargetAlpha0 ctx st targetTime deltaTime - 1| ≤ SMALL_NUMBER then
              false
            else st.bIsInCrouchTransition } := by
        simp only [doUnCrouchResizeMaintainBase]
        rw [hEnc, if_pos rfl]
      rw [hres, hres2]
      exact ⟨rfl, rfl, rfl⟩
  · simp only [groundUncrouchProbeHalfHeight]
    ring

/-- Witness for C8 with an always-blocked overlap oracle at the default
capsule numbers. -/
theorem doUnCrouchResize_blocked_witness :
    doUnCrouchResize ⟨1, 68.58, 34.29, 42, 0.75, true, true, true, 5⟩ (fun _ _ => true)
      ⟨34.29, ⟨0, 0, 0⟩, true, true⟩ 0.2 0.015 = ⟨34.29, ⟨0, 0, 0⟩, true, true⟩ :=
  (doUnCrouchResize_blocked ⟨1, 68.58, 34.29, 42, 0.75, true, true, true, 5⟩
    (fun _ _ => true) ⟨34.29, ⟨0, 0, 0⟩, true, true⟩ 0.2 0.015 rfl
    (by norm_num [SMALL_NUMBER, lt_abs]) (by norm_num [SMALL_NUMBER, lt_abs])).1 rfl

end

end PBMovement
